import Mathlib

set_option allowUnsafeReducibility true

attribute [semireducible] Rat.mul Rat.blt Rat.add Rat.sub Rat.div Rat.inv Rat.normalize

/-!
Verification of the NOVA service-discovery core: rule-based domain/tier
classification (domain-tier-config), the hybrid search engine with
business-priority reranking (hierarchical-tool-registry), the lazy metadata
cache and the three-level tool protocol, and the embedding snapshot-cache
validation (embedding service).  All definitions are shallow embeddings of the
TypeScript source; JavaScript strings are modelled as Lean `String`, numbers
used for scores as `ℚ`, thrown exceptions as `Except` values, and the mutable
registry state as explicit state passing.
-/

namespace NOVA

/-! ### Character-list string primitives

JavaScript string operations (`includes`, `startsWith`, `endsWith`,
`toUpperCase`, `toLowerCase`, `split`, `trim`) modelled over `String.data`
so that every operation is kernel-computable. -/

/-- `p` is a leading segment of `s` (char lists). -/
def chStarts : List Char → List Char → Bool
  | [], _ => true
  | _ :: _, [] => false
  | a :: as, b :: bs => a == b && chStarts as bs

/-- `p` occurs contiguously inside `s` (char lists); models JS `includes`. -/
def chContains (p : List Char) : List Char → Bool
  | [] => p.isEmpty
  | c :: rest => chStarts p (c :: rest) || chContains p rest

/-- `a` occurs in `s`, and `b` occurs at or after the end of that occurrence;
models a `A.*B` regular-expression test. -/
def chSeq (a b : List Char) : List Char → Bool
  | [] => a.isEmpty && b.isEmpty
  | c :: rest => (chStarts a (c :: rest) && chContains b ((c :: rest).drop a.length)) || chSeq a b rest

/-- JS `s.includes(pat)`. -/
def strContains (s pat : String) : Bool := chContains pat.data s.data

/-- JS `s.startsWith(pre)`. -/
def strStarts (s pre : String) : Bool := chStarts pre.data s.data

/-- JS `s.endsWith(suf)`. -/
def strEnds (s suf : String) : Bool := chStarts suf.data.reverse s.data.reverse

/-- `x` then later `y` somewhere in `s`; models an `x.*y` regex test. -/
def strSeq (s x y : String) : Bool := chSeq x.data y.data s.data

/-- JS `s.toUpperCase()` (ASCII). -/
def upperStr (s : String) : String := ⟨s.data.map Char.toUpper⟩

/-- JS `s.toLowerCase()` (ASCII). -/
def lowerStr (s : String) : String := ⟨s.data.map Char.toLower⟩

/-- Split a char list at every whitespace character (runs produce empty
pieces, which every caller filters away); models JS `split(/\s+/)` on a
trimmed string. -/
def splitWsCh : List Char → List (List Char)
  | [] => [[]]
  | c :: rest =>
    let r := splitWsCh rest
    if c.isWhitespace then [] :: r
    else
      match r with
      | [] => [[c]]
      | w :: ws => (c :: w) :: ws

/-- The whitespace-separated pieces of `s`. -/
def wsWords (s : String) : List String := (splitWsCh s.data).map (fun w => (⟨w⟩ : String))

/-- JS `s.trim()`. -/
def trimStr (s : String) : String :=
  ⟨((s.data.dropWhile Char.isWhitespace).reverse.dropWhile Char.isWhitespace).reverse⟩

/-- A single-quote character, used by the composite-key serializer. -/
def quoteS : String := String.singleton (Char.ofNat 39)

/-- JS `array.join(sep)`. -/
def joinWith (sep : String) (parts : List String) : String :=
  match parts with
  | [] => ""
  | p :: rest => rest.foldl (fun acc q => acc ++ sep ++ q) p

/-! ### Classifier (src: domain-tier-config, `classifyService`)

Regular-expression patterns are embedded as boolean matchers on strings;
each case-insensitive pattern uppercases its argument before testing, which
is equivalent on the uppercased service id and matches the `/i` flag on raw
titles. -/

/-- One domain rule-set (source interface `DomainConfig`); regexes are
embedded as `String → Bool` matchers. -/
structure DomainConfig where
  name : String
  displayName : String
  prefixes : List (String → Bool)
  tier1Keywords : List (String → Bool)
  tier2Keywords : List (String → Bool)
  tier3Keywords : List (String → Bool)
  excludePatterns : List (String → Bool)
  priorityServices : List String

/-- Source interface `ServiceClassification`. -/
structure ServiceClassification where
  domain : Option String
  tier : Nat
  priority : Nat
  isPriorityService : Bool
deriving DecidableEq

/-- `matchesAny` from the source: does any pattern accept the value? -/
def matchesAny (value : String) (patterns : List (String → Bool)) : Bool :=
  patterns.any (fun p => p value)

/-- `determineTier` from the source: tier-1 keywords, then tier-2, then
tier-3, evaluated against `id ++ " " ++ title`; default tier 1. -/
def determineTier (serviceId title : String) (config : DomainConfig) : Nat :=
  let searchText := serviceId ++ " " ++ title
  if matchesAny searchText config.tier1Keywords then 1
  else if matchesAny searchText config.tier2Keywords then 2
  else if matchesAny searchText config.tier3Keywords then 3
  else 1

/-- The loop body of `classifyService`, recursing over the configured
domains in declaration order. -/
def classifyWith : List DomainConfig → String → String → ServiceClassification
  | [], _, _ => ⟨none, 0, 100, false⟩
  | config :: rest, serviceId, title =>
    let upperServiceId := upperStr serviceId
    if matchesAny upperServiceId config.excludePatterns then
      classifyWith rest serviceId title
    else if matchesAny upperServiceId config.prefixes || matchesAny title config.prefixes then
      if config.priorityServices.any (fun ps => upperStr ps == upperServiceId) then
        ⟨some config.name, 1, 1, true⟩
      else
        let tier := determineTier serviceId title config
        ⟨some config.name, tier, if tier = 1 then 10 else if tier = 2 then 20 else 30, false⟩
    else
      classifyWith rest serviceId title

/-- Drop the first `n` characters of a string (used to embed anchored
regexes with a wildcard tail). -/
def dropStr (s : String) (n : Nat) : String := ⟨s.data.drop n⟩

/-- Matcher for a case-insensitive regex that contains the literal `lit`
anywhere: `/LIT/i`. -/
def reC (lit : String) : String → Bool := fun s => strContains (upperStr s) lit

/-- Matcher for `/^LIT/i`. -/
def reS (lit : String) : String → Bool := fun s => strStarts (upperStr s) lit

/-- Matcher for `/^Z?LIT/i`: optional leading `Z`, then the literal. -/
def reZS (lit : String) : String → Bool := fun s =>
  strStarts (upperStr s) lit || strStarts (upperStr s) ("Z" ++ lit)

/-- Matcher for `/LIT$/i`. -/
def reE (lit : String) : String → Bool := fun s => strEnds (upperStr s) lit

/-- Matcher for `/A.*B/i`. -/
def reSeq (a b : String) : String → Bool := fun s => strSeq (upperStr s) a b

/-- Matcher for `/^Z?P.*LIT/i`: optional `Z`, anchored piece `p`, then the
literal somewhere after it. -/
def reZSThen (p lit : String) : String → Bool := fun s =>
  let u := upperStr s
  (strStarts u p && strContains (dropStr u p.length) lit) ||
  (strStarts u ("Z" ++ p) && strContains (dropStr u (p.length + 1)) lit)

/-- The `AR` (Accounts Receivable) rule-set from `DOMAIN_CONFIGS`. -/
def AR_CONFIG : DomainConfig where
  name := "AR"
  displayName := "Accounts Receivable"
  prefixes := [reZS "FAR_", reZS "FIAR_", reC "RECEIVABLE", reZSThen "UI_" "RECEIVABLE",
    reZS "UI_COLL", reZS "UDMO_COLLECTION"]
  tier1Keywords := [reC "CUSTOMER_LINE_ITEMS", reC "PAYMENT_POST", reC "MANAGE", reC "CREATE",
    reC "WORKLIST", reC "DOWN_PAYMENT", reC "POSTING_RULE", reC "INCOMING_PAYT"]
  tier2Keywords := [reC "DISPLAY", reC "HISTORY", reC "LIST_", reC "BALANCES",
    reC "CORRESPONDENCE", reC "INSPECT", reC "VALUATION", reC "RESERVE"]
  tier3Keywords := [reE "_CDS", reC "_OVP_", reC "PROCFLOW", reC "_FS_SRV", reC "OVERVIEW",
    reC "TRACKER", reC "BREAKDOWN", reC "AGING", reC "PROGRESS"]
  excludePatterns := [reS "RAR_"]
  priorityServices := ["ZFAR_CUSTOMER_LINE_ITEMS_0001"]

/-- The `SD` (Sales and Distribution) rule-set from `DOMAIN_CONFIGS`. -/
def SD_CONFIG : DomainConfig where
  name := "SD"
  displayName := "Sales & Distribution"
  prefixes := [reZS "SD_", reC "BILLING", reC "INVOICE", reSeq "CREDIT" "MEMO",
    reSeq "DEBIT" "MEMO"]
  tier1Keywords := [reC "MANAGE", reC "CREATE", reC "_WL_SRV"]
  tier2Keywords := [reC "DISPLAY", reC "LIST", reC "_OP_SRV"]
  tier3Keywords := [reE "_CDS", reC "PROCFLOW", reC "_FS_SRV"]
  excludePatterns := []
  priorityServices := ["ZSD_CUSTOMER_INVOICES_MANAGE_0001", "ZSD_CUSTOMER_INVOICES_CREATE_0001"]

/-- The `FI` (Finance) rule-set from `DOMAIN_CONFIGS`. -/
def FI_CONFIG : DomainConfig where
  name := "FI"
  displayName := "Finance"
  prefixes := [reZS "FAC_", reZS "FI_", reC "DUNNING", reC "COLLECTION", reSeq "FINANCIAL" "DOC"]
  tier1Keywords := [reC "MANAGE", reC "POST", reC "PROPOSAL", reC "EXCEPTION"]
  tier2Keywords := [reC "DISPLAY", reC "HISTORY", reC "REVERSAL"]
  tier3Keywords := [reE "_CDS", reC "_OVP_", reC "DISTRIBUTION"]
  excludePatterns := []
  priorityServices := []

/-- `DOMAIN_CONFIGS` in declaration order. -/
def DOMAIN_CONFIGS : List DomainConfig := [AR_CONFIG, SD_CONFIG, FI_CONFIG]

/-- `classifyService` from the source: first-match scan over
`DOMAIN_CONFIGS`. -/
def classifyService (serviceId title : String) : ServiceClassification :=
  classifyWith DOMAIN_CONFIGS serviceId title

/-! ### Catalog data model (src: sap-types) -/

/-- Source interface `Property` (entity property descriptor). -/
structure EntityProperty where
  name : String
  type : String
  nullable : Bool
  maxLength : Option String
deriving DecidableEq

/-- Source interface `EntityType`; navigation properties and the
`addressable` flag are not consulted by the verified operations and are
omitted. -/
structure EntityType where
  name : String
  entitySet : Option String
  keys : List String
  properties : List EntityProperty
  creatable : Bool
  updatable : Bool
  deletable : Bool
deriving DecidableEq

/-- Source interface `ServiceMetadata` (the parts the registry reads). -/
structure ServiceMetadata where
  entityTypes : List EntityType
deriving DecidableEq

/-- Source interface `ODataService`.  `tier` and `priority` are optional
numbers in the source; JavaScript treats `0` and `undefined` alike under
`||`, so both are modelled as `Nat` with `0` for absent/unclassified.
Fields not consulted by the verified operations (catalog version, OData
version, metadata URL, entity-set name list) are omitted. -/
structure ODataService where
  id : String
  title : String
  description : String
  url : String
  domain : Option String
  tier : Nat
  priority : Nat
  isPriorityService : Bool
  metadata : Option ServiceMetadata
deriving DecidableEq

/-- Source interface `ServiceHint` (curated LLM guidance per service). -/
structure ServiceHint where
  label : String
  useFor : String
  entities : Option (List String)
  tcode : Option String
deriving DecidableEq

/-- `x || d` on a JS optional number. -/
def jsOr (x d : Nat) : Nat := if x = 0 then d else x

/-! ### Hybrid search (src: hierarchical-tool-registry,
`discoverServicesAndEntities` / `patternSearch`)

The global `SERVICE_HINTS` lookup (`getServiceHint`) is injected as a
`hints` parameter; the embedding provider outcome is injected as an
`EmbedOutcome` so that a thrown provider error is an explicit value. -/

/-- One scored candidate, as accumulated in `scoredServices`. -/
structure ScoredService where
  service : ODataService
  score : ℚ
  matchReason : String

/-- One semantic hit from `EmbeddingService.searchServices` (its
`metadata.serviceId` and `score`). -/
structure SemResult where
  serviceId : String
  score : ℚ

/-- Outcome of the semantic stage: no ready embedding service, a provider
throw (caught by the registry), or a returned hit list. -/
inductive EmbedOutcome where
  | unavailable
  | failed
  | ok (results : List SemResult)

/-- One `searchTargets` row: lowercased text, fixed weight, field name. -/
structure STarget where
  text : String
  weight : ℚ
  name : String

/-- The seven weighted search targets of `patternSearch`, in source order. -/
def searchTargets (hints : String → Option ServiceHint) (service : ODataService) :
    List STarget :=
  let hint := hints service.id
  [⟨lowerStr service.id, 9/10, "ID"⟩,
   ⟨lowerStr service.title, 85/100, "Title"⟩,
   ⟨lowerStr service.description, 6/10, "Description"⟩,
   ⟨(match hint with | some h => lowerStr h.label | none => ""), 95/100, "Label"⟩,
   ⟨(match hint with | some h => lowerStr h.useFor | none => ""), 9/10, "UseFor"⟩,
   ⟨(match hint with
     | some h => (match h.tcode with | some t => lowerStr t | none => "")
     | none => ""), 85/100, "TCode"⟩,
   ⟨(match hint with
     | some h => (match h.entities with | some es => lowerStr (joinWith " " es) | none => "")
     | none => ""), 8/10, "Entities"⟩]

/-- The query words used for word-level matching: whitespace split, words
of length at most 2 discarded. -/
def queryWords (queryLower : String) : List String :=
  (wsWords queryLower).filter (fun w => 2 < w.length)

/-- The best-score fold over the search targets (the `for` loop of
`patternSearch`): full substring match at full weight, all-words match at
0.9 weight, single-word partial match at 0.85 weight, first two branches
mutually exclusive with the rest, strict improvement updates. -/
def scanTargets (queryLower : String) (qws : List String) :
    List STarget → ℚ × String → ℚ × String
  | [], acc => acc
  | t :: rest, (best, reason) =>
    let acc :=
      if t.text = "" then (best, reason)
      else if strContains t.text queryLower then
        if t.weight > best then (t.weight, t.name ++ " match") else (best, reason)
      else
        match qws with
        | [] => (best, reason)
        | [w0] =>
          if strContains t.text w0 && t.weight * (85/100) > best then
            (t.weight * (85/100), t.name ++ " (partial)")
          else (best, reason)
        | _ :: _ :: _ =>
          if qws.all (fun w => strContains t.text w) && t.weight * (9/10) > best then
            (t.weight * (9/10), t.name ++ " (all words)")
          else (best, reason)
    scanTargets queryLower qws rest acc

/-- `patternSearch` from the source: score every candidate and drop
zero-scoring ones. -/
def patternSearch (hints : String → Option ServiceHint) (services : List ODataService)
    (queryLower : String) : List ScoredService :=
  let qws := queryWords queryLower
  (services.map (fun service =>
    let br := scanTargets queryLower qws (searchTargets hints service) (0, "")
    ScoredService.mk service br.1 br.2)).filter (fun item => 0 < item.score)

/-- The rerank comparator of `discoverServicesAndEntities` as a boolean
"comes before or ties" relation: priority flag, then tier with `|| 99`,
then priority score with `|| 100`, then raw search score descending
(`cmp(a,b) <= 0` for the source comparator). -/
def svcLE (a b : ScoredService) : Bool :=
  if a.service.isPriorityService ≠ b.service.isPriorityService then
    a.service.isPriorityService
  else
    let tierA := jsOr a.service.tier 99
    let tierB := jsOr b.service.tier 99
    if tierA ≠ tierB then tierA < tierB
    else
      let prioA := jsOr a.service.priority 100
      let prioB := jsOr b.service.priority 100
      if prioA ≠ prioB then prioA < prioB
      else b.score ≤ a.score

/-- `svcLE` as a decidable relation for sorting. -/
def svcRel (a b : ScoredService) : Prop := svcLE a b = true

instance : DecidableRel svcRel := fun a b => instDecidableEqBool (svcLE a b) true

/-- Modelled from the spec: the business-priority total preorder as the
claims state it — priority-flagged entries first; among the rest ascending
tier with unclassified (tier 0/absent) last; then ascending priorityScore;
then descending raw search score. -/
def specLE (a b : ScoredService) : Bool :=
  if a.service.isPriorityService ≠ b.service.isPriorityService then
    a.service.isPriorityService
  else
    let tierA := if a.service.tier = 0 then 4 else a.service.tier
    let tierB := if b.service.tier = 0 then 4 else b.service.tier
    if tierA ≠ tierB then tierA < tierB
    else
      let prioA := jsOr a.service.priority 100
      let prioB := jsOr b.service.priority 100
      if prioA ≠ prioB then prioA < prioB
      else b.score ≤ a.score

/-- `args.query` handling: trim, defaulting to the empty string. -/
def queryOf (queryRaw : Option String) : String :=
  match queryRaw with
  | none => ""
  | some s => trimStr s

/-- `args.domain` handling: uppercase, empty/absent defaulting to `ALL`. -/
def domainOf (domainArg : Option String) : String :=
  match domainArg with
  | none => "ALL"
  | some s => if upperStr s = "" then "ALL" else upperStr s

/-- `args.limit` handling: `(args.limit as number) || 20`. -/
def limitOf (limitArg : Option Nat) : Nat :=
  match limitArg with
  | none => 20
  | some n => jsOr n 20

/-- The domain filter step of `discoverServicesAndEntities`. -/
def domainFiltered (catalog : List ODataService) (domainArg : Option String) :
    List ODataService :=
  let domainFilter := domainOf domainArg
  if domainFilter ≠ "ALL" then catalog.filter (fun s => s.domain == some domainFilter)
  else catalog

/-- The two-stage search of `discoverServicesAndEntities` before the
return-all fallback: semantic results mapped back onto the filtered
candidates when the provider returns a non-empty hit list, otherwise
pattern search; a caught provider error also falls through to pattern
search.  Returns the scored list and `searchMethod`. -/
def stageScored (hints : String → Option ServiceHint) (services : List ODataService)
    (emb : EmbedOutcome) (query : String) : List ScoredService × String :=
  if query = "" then ([], "none")
  else
    let queryLower := lowerStr query
    match emb with
    | EmbedOutcome.ok results =>
      if results.isEmpty then (patternSearch hints services queryLower, "pattern")
      else
        let sem := results.filterMap (fun r =>
          (services.find? (fun s => s.id == r.serviceId)).map (fun s =>
            ScoredService.mk s r.score "Semantic match"))
        if sem.isEmpty then (patternSearch hints services queryLower, "pattern")
        else (sem, "semantic")
    | _ => (patternSearch hints services queryLower, "pattern")

/-- The return-all fallback: when both stages produced nothing (or the
query was empty), every remaining candidate is returned with the neutral
score 0.5. -/
def withFallback (services : List ODataService) (stage : List ScoredService × String)
    (query : String) : List ScoredService × String :=
  if stage.1.isEmpty then
    (services.map (fun s => ScoredService.mk s (1/2) "All services"),
     if query = "" then "all" else "fallback")
  else stage

/-- The rerank step: a stable comparator sort, as the JS engine performs. -/
def rerank (scored : List ScoredService) : List ScoredService :=
  List.insertionSort svcRel scored

/-- `discoverServicesAndEntities` (Level 1), returning the limited ranked
result list, the `searchMethod` label, and `totalFound`. -/
def discoverCore (hints : String → Option ServiceHint) (catalog : List ODataService)
    (emb : EmbedOutcome) (queryRaw domainArg : Option String) (limitArg : Option Nat) :
    List ScoredService × String × Nat :=
  let query := queryOf queryRaw
  let limit := limitOf limitArg
  let services := domainFiltered catalog domainArg
  let st := withFallback services (stageScored hints services emb query) query
  ((rerank st.1).take limit, st.2, st.1.length)

/-- Modelled from the spec (claim C5): the per-field lexical score — full
substring match at full weight, all-words match at 0.9 weight, single-word
partial match at 0.85 weight, otherwise zero. -/
def fieldScoreSpec (queryLower : String) (qws : List String) (text : String) (weight : ℚ) : ℚ :=
  if text = "" then 0
  else if strContains text queryLower then weight
  else
    match qws with
    | [] => 0
    | [w0] => if strContains text w0 then weight * (85/100) else 0
    | _ :: _ :: _ => if qws.all (fun w => strContains text w) then weight * (9/10) else 0

/-- Modelled from the spec (claim C5): a candidate scores the maximum of
its per-field scores. -/
def bestScoreSpec (hints : String → Option ServiceHint) (queryLower : String)
    (service : ODataService) : ℚ :=
  ((searchTargets hints service).map (fun t =>
    fieldScoreSpec queryLower (queryWords queryLower) t.text t.weight)).foldl max 0

/-! ### Lazy metadata cache and CRUD execution (src:
hierarchical-tool-registry, `getEntityMetadata` / `executeOperation` /
`buildKeyValue`)

The mutable registry state (catalog entries with their lazily populated
`metadata` field, plus the `metadataCache` map) is passed explicitly; the
schema provider `fetchServiceMetadata` is injected as a deterministic
function; every upstream interaction is recorded in a call trace. -/

/-- Registry shared state: the catalog (whose entries carry the lazily
populated `metadata`) and the `metadataCache` map. -/
structure RegState where
  catalog : List ODataService
  metadataCache : List (String × ServiceMetadata)

/-- One upstream interaction of Level 2/3. -/
inductive UpstreamCall where
  | metadataFetch (serviceId : String)
  | readSet (url entitySet : String)
  | readSingle (url entitySet keyValue : String)
  | createCall (url entitySet : String) (data : List (String × String))
  | updateCall (url entitySet keyValue : String) (data : List (String × String))
  | deleteCall (url entitySet keyValue : String)
deriving DecidableEq

/-- Is the call a write against the upstream data service? -/
def UpstreamCall.isWrite : UpstreamCall → Bool
  | createCall _ _ _ => true
  | updateCall _ _ _ _ => true
  | deleteCall _ _ _ => true
  | _ => false

/-- One step result: the structured outcome (errors are the messages the
registry returns as `isError` content), the post state, and the upstream
calls issued. -/
structure StepOut where
  result : Except String String
  state : RegState
  trace : List UpstreamCall

/-- `metadataCache.get`. -/
def lookupCache (c : List (String × ServiceMetadata)) (serviceId : String) :
    Option ServiceMetadata :=
  (c.find? (fun p => p.1 == serviceId)).map (fun p => p.2)

/-- JS object key lookup on the `parameters` record. -/
def lookupParam (parameters : List (String × String)) (k : String) : Option String :=
  (parameters.find? (fun p => p.1 == k)).map (fun p => p.2)

/-- The `service.metadata = ...` assignment, applied to the catalog entry
with the given id. -/
def setMetadata (catalog : List ODataService) (serviceId : String) (md : ServiceMetadata) :
    List ODataService :=
  catalog.map (fun s => if s.id == serviceId then { s with metadata := some md } else s)

/-- The shared lazy-load block of Levels 2 and 3: use `service.metadata` if
present, else the cache, else fetch from the schema provider and cache the
result (nothing is cached on a failed fetch). -/
def ensureMetadata (fetch : String → Except String ServiceMetadata) (st : RegState)
    (service : ODataService) : Except String ServiceMetadata × RegState × List UpstreamCall :=
  match service.metadata with
  | some md => (Except.ok md, st, [])
  | none =>
    match lookupCache st.metadataCache service.id with
    | some md => (Except.ok md, ⟨setMetadata st.catalog service.id md, st.metadataCache⟩, [])
    | none =>
      match fetch service.id with
      | Except.ok md =>
        (Except.ok md,
         ⟨setMetadata st.catalog service.id md, (service.id, md) :: st.metadataCache⟩,
         [UpstreamCall.metadataFetch service.id])
      | Except.error e =>
        (Except.error ("Failed to load metadata for " ++ service.id ++ ": " ++ e),
         st, [UpstreamCall.metadataFetch service.id])

/-- `getEntityMetadata` (Level 2). -/
def getEntityMetadata (fetch : String → Except String ServiceMetadata) (st : RegState)
    (serviceId entityName : String) : StepOut :=
  if serviceId = "" ∨ entityName = "" then
    ⟨Except.error "Both serviceId and entityName are required.", st, []⟩
  else
    match st.catalog.find? (fun s => s.id == serviceId) with
    | none => ⟨Except.error ("Service not found: " ++ serviceId), st, []⟩
    | some service =>
      match ensureMetadata fetch st service with
      | (Except.error e, st1, tr) => ⟨Except.error e, st1, tr⟩
      | (Except.ok md, st1, tr) =>
        match md.entityTypes.find? (fun e => e.name == entityName) with
        | none =>
          ⟨Except.error ("Entity " ++ quoteS ++ entityName ++ quoteS ++ " not found in " ++
            serviceId ++ ". Available entities: " ++
            joinWith ", " (md.entityTypes.map (fun e => e.name))), st1, tr⟩
        | some _ => ⟨Except.ok ("Schema for " ++ entityName), st1, tr⟩

/-- `buildKeyValue`: a single declared key is the raw stringified value; two
or more keys are serialized as quoted `name=value` pairs joined by `,`; a
missing key value raises an error naming that key. -/
def buildKeyValue (entityType : EntityType) (parameters : List (String × String)) :
    Except String String :=
  match entityType.keys with
  | [keyName] =>
    match lookupParam parameters keyName with
    | none => Except.error ("Missing key: " ++ keyName)
    | some v => Except.ok v
  | keys =>
    (keys.foldr (fun key acc =>
      match lookupParam parameters key with
      | none => Except.error ("Missing key: " ++ key)
      | some v => acc.map (fun parts => (key ++ "=" ++ quoteS ++ v ++ quoteS) :: parts))
      (Except.ok [])).map (fun parts => joinWith "," parts)

/-- The valid Level 3 operations. -/
def validOps : List String := ["read", "read-single", "create", "update", "delete"]

/-- `executeOperation` (Level 3).  Query options only shape the read call
payloads and are not consulted by any verified property; they are elided
from the trace constructors. -/
def executeOperation (fetch : String → Except String ServiceMetadata) (st : RegState)
    (serviceId entityName operationRaw : String) (parameters : List (String × String)) :
    StepOut :=
  let operation := lowerStr operationRaw
  if ¬ validOps.contains operation then
    ⟨Except.error ("Invalid operation: " ++ operation ++ ". Valid: " ++ joinWith ", " validOps),
     st, []⟩
  else
    match st.catalog.find? (fun s => s.id == serviceId) with
    | none => ⟨Except.error ("Service not found: " ++ serviceId), st, []⟩
    | some service =>
      match ensureMetadata fetch st service with
      | (Except.error e, st1, tr) => ⟨Except.error e, st1, tr⟩
      | (Except.ok md, st1, tr) =>
        match md.entityTypes.find? (fun e => e.name == entityName) with
        | none =>
          ⟨Except.error ("Entity " ++ quoteS ++ entityName ++ quoteS ++ " not found in " ++
            serviceId), st1, tr⟩
        | some entityType =>
          let es := entityType.entitySet.getD ""
          if operation = "read" then
            ⟨Except.ok ("Reading " ++ entityName), st1,
             tr ++ [UpstreamCall.readSet service.url es]⟩
          else if operation = "read-single" then
            match buildKeyValue entityType parameters with
            | Except.error e => ⟨Except.error e, st1, tr⟩
            | Except.ok keyValue =>
              ⟨Except.ok ("Reading single " ++ entityName ++ " with key: " ++ keyValue), st1,
               tr ++ [UpstreamCall.readSingle service.url es keyValue]⟩
          else if operation = "create" then
            if ¬ entityType.creatable then
              ⟨Except.error ("Entity " ++ quoteS ++ entityName ++ quoteS ++ " is not creatable"),
               st1, tr⟩
            else
              ⟨Except.ok ("Creating " ++ entityName), st1,
               tr ++ [UpstreamCall.createCall service.url es parameters]⟩
          else if operation = "update" then
            if ¬ entityType.updatable then
              ⟨Except.error ("Entity " ++ quoteS ++ entityName ++ quoteS ++ " is not updatable"),
               st1, tr⟩
            else
              match buildKeyValue entityType parameters with
              | Except.error e => ⟨Except.error e, st1, tr⟩
              | Except.ok updateKey =>
                let updateData := parameters.filter (fun p => ¬ entityType.keys.contains p.1)
                ⟨Except.ok ("Updating " ++ entityName ++ " with key: " ++ updateKey), st1,
                 tr ++ [UpstreamCall.updateCall service.url es updateKey updateData]⟩
          else
            if ¬ entityType.deletable then
              ⟨Except.error ("Entity " ++ quoteS ++ entityName ++ quoteS ++ " is not deletable"),
               st1, tr⟩
            else
              match buildKeyValue entityType parameters with
              | Except.error e => ⟨Except.error e, st1, tr⟩
              | Except.ok deleteKey =>
                ⟨Except.ok ("Deleted " ++ entityName ++ ": " ++ deleteKey), st1,
                 tr ++ [UpstreamCall.deleteCall service.url es deleteKey]⟩

/-- The entity a Level 3 call would resolve (service lookup, lazy metadata
load, entity lookup), without executing the operation. -/
def resolveEntity (fetch : String → Except String ServiceMetadata) (st : RegState)
    (serviceId entityName : String) : Option EntityType :=
  match st.catalog.find? (fun s => s.id == serviceId) with
  | none => none
  | some service =>
    match (ensureMetadata fetch st service).1 with
    | Except.error _ => none
    | Except.ok md => md.entityTypes.find? (fun e => e.name == entityName)

/-- One externally exposed call of the sequential protocol. -/
inductive ToolCall where
  | inspect (serviceId entityName : String)
  | act (serviceId entityName operation : String) (parameters : List (String × String))

/-- Dispatch one tool call. -/
def runCall (fetch : String → Except String ServiceMetadata) (st : RegState) :
    ToolCall → StepOut
  | ToolCall.inspect sid en => getEntityMetadata fetch st sid en
  | ToolCall.act sid en op ps => executeOperation fetch st sid en op ps

/-- Run a sequential sequence of tool calls, concatenating traces. -/
def runCalls (fetch : String → Except String ServiceMetadata) (st : RegState) :
    List ToolCall → RegState × List UpstreamCall
  | [] => (st, [])
  | c :: rest =>
    let out := runCall fetch st c
    let r := runCalls fetch out.state rest
    (r.1, out.trace ++ r.2)

/-- Is metadata for `serviceId` already materialized (on the catalog entry
or in the cache)? -/
def hasMeta (st : RegState) (serviceId : String) : Bool :=
  (match st.catalog.find? (fun s => s.id == serviceId) with
   | some s => s.metadata.isSome
   | none => false) || (lookupCache st.metadataCache serviceId).isSome

/-- Number of schema-provider fetches for `serviceId` in a trace. -/
def countFetch (serviceId : String) (tr : List UpstreamCall) : Nat :=
  tr.countP (fun c => c == UpstreamCall.metadataFetch serviceId)

/-! ### Embedding snapshot cache validation (src: embedding service
`loadCache` / `computeServicesHash` / `shouldSkipEntity`) -/

/-- `CACHE_VERSION` constant. -/
def CACHE_VERSION : String := "1.0"

/-- `MODEL_NAME` constant. -/
def MODEL_NAME : String := "Xenova/all-MiniLM-L6-v2"

/-- `shouldSkipEntity`: the `SKIP_PATTERNS` stoplist of non-business entity
names (case-sensitive regexes, embedded as anchored/substring tests). -/
def shouldSkipEntity (entityName : String) : Bool :=
  strStarts entityName "VL_" || strStarts entityName "I_" || strStarts entityName "SAP__" ||
  strStarts entityName "P_" || strEnds entityName "Parameters" || strStarts entityName "_" ||
  strContains entityName "DraftAdministrativeData"

/-- JS UTF-16 string comparison used by `Array.prototype.sort()`. -/
def strLeJS (a b : String) : Bool := chLeList a.data b.data where
  chLeList : List Char → List Char → Bool
    | [], _ => true
    | _ :: _, [] => false
    | a :: as, b :: bs => if a = b then chLeList as bs else decide (a < b)

/-- Decimal rendering of a number for JS array `join` (entity counts). -/
def natStr (n : Nat) : String := if n < 10 then digitStr n else natStr (n / 10) ++ digitStr (n % 10)
where
  digitStr (d : Nat) : String := String.singleton (Char.ofNat (48 + d % 10))

/-- `computeServicesHash`: sorted service ids joined by `,`, a `|`
separator, then the per-service entity counts joined by `,`. -/
def computeServicesHash (services : List ODataService) : String :=
  let serviceIds :=
    joinWith "," (List.insertionSort (fun a b => strLeJS a b = true) (services.map (fun s => s.id)))
  let entityCounts := joinWith "," (services.map (fun s =>
    natStr (match s.metadata with | some m => m.entityTypes.length | none => 0)))
  serviceIds ++ "|" ++ entityCounts

/-- The persisted snapshot header (`EmbeddingCache`); the embeddings payload
itself is not consulted by the load-time validation and is omitted. -/
structure EmbeddingCache where
  version : String
  model : String
  timestamp : Nat
  entityCount : Nat
deriving DecidableEq

/-- The expected corpus size `loadCache` computes from the current
services: business entities only (stoplist filtered). -/
def expectedEntityCount (services : List ODataService) : Nat :=
  services.foldl (fun sum s =>
    sum + ((match s.metadata with | some m => m.entityTypes | none => ([] : List EntityType)).filter
      (fun (e : EntityType) => ¬ shouldSkipEntity e.name)).length) 0

/-- The validation portion of `loadCache`: a version or model mismatch is a
hard miss; when current services are supplied, the snapshot entity count
must lie within `max(10, floor(5%))` of the expected business-entity count
(`Math.floor(expectedCount * 0.05)` is `expectedCount / 20`). -/
def loadCacheValid (cache : EmbeddingCache) (currentServices : Option (List ODataService)) :
    Bool :=
  if cache.version ≠ CACHE_VERSION then false
  else if cache.model ≠ MODEL_NAME then false
  else
    match currentServices with
    | none => true
    | some services =>
      let expectedCount := expectedEntityCount services
      let tolerance := max 10 (expectedCount / 20)
      decide (Nat.dist cache.entityCount expectedCount ≤ tolerance)

/-! ## Theorems -/

/-- Exclusion precedence over an arbitrary configuration list: a
classification can only carry domain `d` through a config named `d` whose
exclude patterns did not all reject the id. -/
theorem classifyWith_excluded_ne (configs : List DomainConfig) (serviceId title d : String)
    (h : ∀ cfg ∈ configs, cfg.name = d →
      matchesAny (upperStr serviceId) cfg.excludePatterns = true) :
    (classifyWith configs serviceId title).domain ≠ some d := by
  induction configs with
  | nil => simp [classifyWith]
  | cons config rest ih =>
    have hrest : ∀ cfg ∈ rest, cfg.name = d →
        matchesAny (upperStr serviceId) cfg.excludePatterns = true := by
      intro cfg hm hn
      exact h cfg (List.mem_cons_of_mem _ hm) hn
    by_cases hex : matchesAny (upperStr serviceId) config.excludePatterns = true
    · simp only [classifyWith, hex, if_true]
      exact ih hrest
    · have hname : config.name ≠ d := by
        intro hn
        exact hex (h config (List.mem_cons_self _ _) hn)
      simp only [classifyWith, hex, if_false]
      by_cases hpre : (matchesAny (upperStr serviceId) config.prefixes ||
          matchesAny title config.prefixes) = true
      · simp only [hpre, if_true]
        by_cases hps : (config.priorityServices.any
            (fun ps => upperStr ps == upperStr serviceId)) = true
        · simp only [hps, if_true]
          simpa using hname
        · simp only [hps, if_false]
          simpa using hname
      · simp only [hpre, if_false]
        exact ih hrest

/-- C2: for every serviceId and title pair, if the serviceId matches any
exclude pattern of a domain's configuration, `classifyService` never
assigns that domain, even when the serviceId or title also matches that
domain's inclusion patterns — the exclude check dominates and the domain
is skipped entirely. -/
theorem C2_exclude_dominates (serviceId title d : String)
    (h : ∀ cfg ∈ DOMAIN_CONFIGS, cfg.name = d →
      matchesAny (upperStr serviceId) cfg.excludePatterns = true) :
    (classifyService serviceId title).domain ≠ some d :=
  classifyWith_excluded_ne DOMAIN_CONFIGS serviceId title d h

/-- C2 witness: `RAR_RECEIVABLE_X` matches the AR exclusion prefix `RAR_`
and also an AR inclusion pattern, and is not classified as AR. -/
theorem C2_exclude_dominates_witness :
    (∀ cfg ∈ DOMAIN_CONFIGS, cfg.name = "AR" →
      matchesAny (upperStr "RAR_RECEIVABLE_X") cfg.excludePatterns = true) ∧
    matchesAny (upperStr "RAR_RECEIVABLE_X") AR_CONFIG.prefixes = true ∧
    (classifyService "RAR_RECEIVABLE_X" "Revenue Recognition").domain ≠ some "AR" :=
  ⟨by decide, by decide,
   C2_exclude_dominates "RAR_RECEIVABLE_X" "Revenue Recognition" "AR" (by decide)⟩

/-- The composite-key fold of `buildKeyValue` with every key value present
produces the quoted `name=value` pairs in declaration order. -/
theorem keyFold_all_present (parameters : List (String × String)) (keys : List String)
    (h : ∀ k ∈ keys, (lookupParam parameters k).isSome = true) :
    (keys.foldr (fun key acc =>
      match lookupParam parameters key with
      | none => Except.error ("Missing key: " ++ key)
      | some v => acc.map (fun parts => (key ++ "=" ++ quoteS ++ v ++ quoteS) :: parts))
      (Except.ok [])) =
    Except.ok (keys.map (fun k => k ++ "=" ++ quoteS ++ ((lookupParam parameters k).getD "") ++
      quoteS)) := by
  induction keys with
  | nil => simp
  | cons k rest ih =>
    have hk : (lookupParam parameters k).isSome = true := h k (List.mem_cons_self _ _)
    obtain ⟨v, hv⟩ := Option.isSome_iff_exists.mp hk
    have hrest := ih (fun k hm => h k (List.mem_cons_of_mem _ hm))
    simp only [List.foldr_cons, hv]
    rw [hrest]
    simp [Except.map, hv]

/-- The composite-key fold of `buildKeyValue` fails with the first missing
key in declaration order. -/
theorem keyFold_first_missing (parameters : List (String × String)) (keys : List String)
    (k0 : String)
    (h : keys.find? (fun k => (lookupParam parameters k).isNone) = some k0) :
    (keys.foldr (fun key acc =>
      match lookupParam parameters key with
      | none => Except.error ("Missing key: " ++ key)
      | some v => acc.map (fun parts => (key ++ "=" ++ quoteS ++ v ++ quoteS) :: parts))
      (Except.ok [])) =
    Except.error ("Missing key: " ++ k0) := by
  induction keys with
  | nil => simp at h
  | cons k rest ih =>
    by_cases hk : (lookupParam parameters k).isNone = true
    · rw [List.find?_cons_of_pos (p := fun k => (lookupParam parameters k).isNone) _ hk] at h
      obtain rfl : k = k0 := by simpa using h
      rw [Option.isNone_iff_eq_none] at hk
      simp only [List.foldr_cons, hk]
    · rw [List.find?_cons_of_neg (p := fun k => (lookupParam parameters k).isNone) _ hk] at h
      cases hle : lookupParam parameters k with
      | none => exact absurd (by simp [hle]) hk
      | some v =>
        simp only [List.foldr_cons, hle]
        rw [ih h]
        simp [Except.map]

/-- C9: for key-addressed operations, an entity with exactly one declared
key property composes the raw stringified parameter value with no
`name=value` wrapper and no quoting; the quoted pairs joined by `,` are
used only for two or more declared keys; and a missing key value raises an
error naming exactly the first missing key property in declaration order. -/
theorem C9_buildKeyValue (entityType : EntityType) (parameters : List (String × String)) :
    (∀ k v, entityType.keys = [k] → lookupParam parameters k = some v →
      buildKeyValue entityType parameters = Except.ok v) ∧
    (2 ≤ entityType.keys.length →
      (∀ k ∈ entityType.keys, (lookupParam parameters k).isSome = true) →
      buildKeyValue entityType parameters =
        Except.ok (joinWith "," (entityType.keys.map (fun k =>
          k ++ "=" ++ quoteS ++ ((lookupParam parameters k).getD "") ++ quoteS)))) ∧
    (∀ k0, entityType.keys.find? (fun k => (lookupParam parameters k).isNone) = some k0 →
      buildKeyValue entityType parameters = Except.error ("Missing key: " ++ k0)) := by
  refine ⟨?_, ?_, ?_⟩
  · intro k v hkeys hv
    simp [buildKeyValue, hkeys, hv]
  · intro hlen hall
    match hkeys : entityType.keys with
    | [] => rw [hkeys] at hlen; simp at hlen
    | [k] => rw [hkeys] at hlen; simp at hlen
    | k1 :: k2 :: rest =>
      rw [hkeys] at hall
      simp only [buildKeyValue, hkeys]
      rw [keyFold_all_present parameters (k1 :: k2 :: rest) hall]
      simp [Except.map]
  · intro k0 h
    match hkeys : entityType.keys with
    | [] => rw [hkeys] at h; simp at h
    | [k] =>
      rw [hkeys] at h
      by_cases hk : (lookupParam parameters k).isNone = true
      · rw [List.find?_cons_of_pos (p := fun k => (lookupParam parameters k).isNone) _ hk] at h
        obtain rfl : k = k0 := by simpa using h
        rw [Option.isNone_iff_eq_none] at hk
        simp [buildKeyValue, hkeys, hk]
      · rw [List.find?_cons_of_neg (p := fun k => (lookupParam parameters k).isNone) _ hk] at h
        simp at h
    | k1 :: k2 :: rest =>
      rw [hkeys] at h
      simp only [buildKeyValue, hkeys]
      rw [keyFold_first_missing parameters (k1 :: k2 :: rest) k0 h]
      simp [Except.map]

/-- C9 witness: a one-key entity yields the raw value `42`; a two-key
entity yields quoted pairs; a missing first key is the one named. -/
theorem C9_buildKeyValue_witness :
    buildKeyValue ⟨"E", some "ES", ["Id"], [], true, true, true⟩ [("Id", "42")] =
      Except.ok "42" ∧
    buildKeyValue ⟨"E", some "ES", ["A", "B"], [], true, true, true⟩ [("A", "1"), ("B", "2")] =
      Except.ok (joinWith "," ((["A", "B"] : List String).map (fun k =>
        k ++ "=" ++ quoteS ++ ((lookupParam [("A", "1"), ("B", "2")] k).getD "") ++ quoteS))) ∧
    buildKeyValue ⟨"E", some "ES", ["A", "B"], [], true, true, true⟩ [("B", "2")] =
      Except.error ("Missing key: " ++ "A") :=
  ⟨(C9_buildKeyValue _ _).1 "Id" "42" rfl (by decide),
   (C9_buildKeyValue _ _).2.1 (by decide) (by decide),
   (C9_buildKeyValue _ _).2.2 "A" (by decide)⟩

/-- C8 counterexample: snapshot acceptance does not consult the sorted-ids
corpus signature — a snapshot built over services `A_ONE, A_TWO` is also
accepted against services `B_ONE, B_TWO` (disjoint ids, so
`computeServicesHash` differs completely), because the load check compares
only entity counts; moreover a count drift of 400 percent (10 vs 2) is
also accepted, since the tolerance is `max(10, floor(5%))`, not 5
percent. -/
theorem C8_counterexample :
    loadCacheValid ⟨"1.0", "Xenova/all-MiniLM-L6-v2", 0, 2⟩
      (some [⟨"A_ONE", "t", "d", "u", none, 0, 0, false,
               some ⟨[⟨"Customer", some "Customers", ["Id"], [], true, true, true⟩]⟩⟩,
             ⟨"A_TWO", "t", "d", "u", none, 0, 0, false,
               some ⟨[⟨"Customer", some "Customers", ["Id"], [], true, true, true⟩]⟩⟩]) = true ∧
    loadCacheValid ⟨"1.0", "Xenova/all-MiniLM-L6-v2", 0, 2⟩
      (some [⟨"B_ONE", "t", "d", "u", none, 0, 0, false,
               some ⟨[⟨"Customer", some "Customers", ["Id"], [], true, true, true⟩]⟩⟩,
             ⟨"B_TWO", "t", "d", "u", none, 0, 0, false,
               some ⟨[⟨"Customer", some "Customers", ["Id"], [], true, true, true⟩]⟩⟩]) = true ∧
    computeServicesHash [⟨"A_ONE", "t", "d", "u", none, 0, 0, false,
               some ⟨[⟨"Customer", some "Customers", ["Id"], [], true, true, true⟩]⟩⟩,
             ⟨"A_TWO", "t", "d", "u", none, 0, 0, false,
               some ⟨[⟨"Customer", some "Customers", ["Id"], [], true, true, true⟩]⟩⟩] ≠
    computeServicesHash [⟨"B_ONE", "t", "d", "u", none, 0, 0, false,
               some ⟨[⟨"Customer", some "Customers", ["Id"], [], true, true, true⟩]⟩⟩,
             ⟨"B_TWO", "t", "d", "u", none, 0, 0, false,
               some ⟨[⟨"Customer", some "Customers", ["Id"], [], true, true, true⟩]⟩⟩] ∧
    loadCacheValid ⟨"1.0", "Xenova/all-MiniLM-L6-v2", 0, 10⟩
      (some [⟨"A_ONE", "t", "d", "u", none, 0, 0, false,
               some ⟨[⟨"Customer", some "Customers", ["Id"], [], true, true, true⟩]⟩⟩,
             ⟨"A_TWO", "t", "d", "u", none, 0, 0, false,
               some ⟨[⟨"Customer", some "Customers", ["Id"], [], true, true, true⟩]⟩⟩]) = true ∧
    ¬ 20 * Nat.dist 10 2 ≤ 2 := by
  exact ⟨by decide, by decide, by decide, by decide, by decide⟩

/-- C8 (amended): a mismatch of the snapshot version or the model
identifier is a hard miss; corpus drift is measured by comparing the
snapshot's stored entity count with the expected count of non-stoplisted
business entities of the current services, with tolerance
`max(10, floor(5% of expected))` — in particular the snapshot is always
accepted when the drift is at most 5 percent of the expected count. -/
theorem C8_snapshot_validation (cache : EmbeddingCache) (services : List ODataService) :
    (∀ cs : Option (List ODataService),
      cache.version ≠ CACHE_VERSION ∨ cache.model ≠ MODEL_NAME →
      loadCacheValid cache cs = false) ∧
    (cache.version = CACHE_VERSION → cache.model = MODEL_NAME →
      20 * Nat.dist cache.entityCount (expectedEntityCount services) ≤
        expectedEntityCount services →
      loadCacheValid cache (some services) = true) := by
  constructor
  · intro cs hmis
    rcases hmis with hv | hm
    · simp [loadCacheValid, hv]
    · by_cases hv : cache.version = CACHE_VERSION
      · simp [loadCacheValid, hv, hm]
      · simp [loadCacheValid, hv]
  · intro hv hm hdrift
    have hdiv : Nat.dist cache.entityCount (expectedEntityCount services) ≤
        expectedEntityCount services / 20 :=
      (Nat.le_div_iff_mul_le (by norm_num)).mpr (by omega)
    have hle : Nat.dist cache.entityCount (expectedEntityCount services) ≤
        max 10 (expectedEntityCount services / 20) :=
      le_trans hdiv (le_max_right _ _)
    simp [loadCacheValid, hv, hm, hle]

/-- C8 witness: a version-mismatched snapshot is rejected; a snapshot whose
entity count exactly matches the expected business-entity count is
accepted. -/
theorem C8_snapshot_validation_witness :
    loadCacheValid ⟨"0.9", "Xenova/all-MiniLM-L6-v2", 0, 2⟩ none = false ∧
    loadCacheValid ⟨"1.0", "Xenova/all-MiniLM-L6-v2", 0, 1⟩
      (some [⟨"A_ONE", "t", "d", "u", none, 0, 0, false,
               some ⟨[⟨"Customer", some "Customers", ["Id"], [], true, true, true⟩]⟩⟩]) = true :=
  ⟨(C8_snapshot_validation ⟨"0.9", "Xenova/all-MiniLM-L6-v2", 0, 2⟩ []).1 none
     (Or.inl (by decide)),
   (C8_snapshot_validation ⟨"1.0", "Xenova/all-MiniLM-L6-v2", 0, 1⟩
      [⟨"A_ONE", "t", "d", "u", none, 0, 0, false,
         some ⟨[⟨"Customer", some "Customers", ["Id"], [], true, true, true⟩]⟩⟩]).2
     rfl rfl (by decide)⟩

/-- The best-score fold of `patternSearch` computes the running maximum of
the per-field spec scores. -/
theorem scanTargets_fst (ql : String) (qws : List String) (ts : List STarget) :
    ∀ b r, 0 ≤ b → (scanTargets ql qws ts (b, r)).1 =
      (ts.map (fun t => fieldScoreSpec ql qws t.text t.weight)).foldl max b := by
  rcases qws with _ | ⟨w0, _ | ⟨w2, ws⟩⟩
  · induction ts with
    | nil => intro b r hb; simp [scanTargets]
    | cons t rest ih =>
      intro b r hb
      simp only [scanTargets, List.map_cons, List.foldl_cons]
      by_cases h0 : t.text = ""
      · rw [if_pos h0, ih _ _ hb]
        simp [fieldScoreSpec, h0, max_eq_left hb]
      · rw [if_neg h0]
        by_cases hc : strContains t.text ql = true
        · rw [if_pos hc]
          by_cases hw : t.weight > b
          · rw [if_pos hw, ih _ _ (le_of_lt (lt_of_le_of_lt hb hw))]
            simp [fieldScoreSpec, h0, hc, max_eq_right (le_of_lt hw)]
          · rw [if_neg hw, ih _ _ hb]
            simp [fieldScoreSpec, h0, hc, max_eq_left (not_lt.mp hw)]
        · rw [if_neg hc, ih _ _ hb]
          simp [fieldScoreSpec, h0, hc, max_eq_left hb]
  · induction ts with
    | nil => intro b r hb; simp [scanTargets]
    | cons t rest ih =>
      intro b r hb
      simp only [scanTargets, List.map_cons, List.foldl_cons]
      by_cases h0 : t.text = ""
      · rw [if_pos h0, ih _ _ hb]
        simp [fieldScoreSpec, h0, max_eq_left hb]
      · rw [if_neg h0]
        by_cases hc : strContains t.text ql = true
        · rw [if_pos hc]
          by_cases hw : t.weight > b
          · rw [if_pos hw, ih _ _ (le_of_lt (lt_of_le_of_lt hb hw))]
            simp [fieldScoreSpec, h0, hc, max_eq_right (le_of_lt hw)]
          · rw [if_neg hw, ih _ _ hb]
            simp [fieldScoreSpec, h0, hc, max_eq_left (not_lt.mp hw)]
        · rw [if_neg hc]
          by_cases hcw : strContains t.text w0 = true
          · by_cases hw : t.weight * (85/100) > b
            · rw [if_pos (by simp [hcw, hw]), ih _ _ (le_of_lt (lt_of_le_of_lt hb hw))]
              simp [fieldScoreSpec, h0, hc, hcw, max_eq_right (le_of_lt hw)]
            · rw [if_neg (by simp [hcw, hw]), ih _ _ hb]
              simp [fieldScoreSpec, h0, hc, hcw, max_eq_left (not_lt.mp hw)]
          · rw [if_neg (by simp [hcw]), ih _ _ hb]
            simp [fieldScoreSpec, h0, hc, hcw, max_eq_left hb]
  · induction ts with
    | nil => intro b r hb; simp [scanTargets]
    | cons t rest ih =>
      intro b r hb
      simp only [scanTargets, List.map_cons, List.foldl_cons]
      by_cases h0 : t.text = ""
      · rw [if_pos h0, ih _ _ hb]
        simp [fieldScoreSpec, h0, max_eq_left hb]
      · rw [if_neg h0]
        by_cases hc : strContains t.text ql = true
        · rw [if_pos hc]
          by_cases hw : t.weight > b
          · rw [if_pos hw, ih _ _ (le_of_lt (lt_of_le_of_lt hb hw))]
            simp [fieldScoreSpec, h0, hc, max_eq_right (le_of_lt hw)]
          · rw [if_neg hw, ih _ _ hb]
            simp [fieldScoreSpec, h0, hc, max_eq_left (not_lt.mp hw)]
        · rw [if_neg hc]
          by_cases hall : ((w0 :: w2 :: ws).all (fun w => strContains t.text w)) = true
          · by_cases hw : t.weight * (9/10) > b
            · rw [if_pos (by simp [hall, hw]), ih _ _ (le_of_lt (lt_of_le_of_lt hb hw))]
              simp [fieldScoreSpec, h0, hc, hall, max_eq_right (le_of_lt hw)]
            · rw [if_neg (by simp [hall, hw]), ih _ _ hb]
              simp [fieldScoreSpec, h0, hc, hall, max_eq_left (not_lt.mp hw)]
          · rw [if_neg (by simp [hall]), ih _ _ hb]
            simp [fieldScoreSpec, h0, hc, hall, max_eq_left hb]

/-- Membership in a `patternSearch` result: the candidate comes from the
input services, scores positively, and its score is the spec maximum. -/
theorem mem_patternSearch (hints : String → Option ServiceHint) (services : List ODataService)
    (ql : String) (item : ScoredService) (h : item ∈ patternSearch hints services ql) :
    item.service ∈ services ∧ 0 < item.score ∧
      item.score = bestScoreSpec hints ql item.service := by
  unfold patternSearch at h
  have h1 := List.mem_filter.mp h
  obtain ⟨s, hs, heq⟩ := List.mem_map.mp h1.1
  subst heq
  refine ⟨hs, by simpa using h1.2, ?_⟩
  show (scanTargets ql (queryWords ql) (searchTargets hints s) (0, "")).1 = _
  rw [scanTargets_fst _ _ _ _ _ le_rfl]
  rfl

/-- A left fold of `max` either returns its seed or one of the list
elements. -/
theorem foldl_max_cases (l : List ℚ) : ∀ b : ℚ, l.foldl max b = b ∨ (l.foldl max b) ∈ l := by
  induction l with
  | nil => intro b; left; rfl
  | cons x xs ih =>
    intro b
    rw [List.foldl_cons]
    rcases ih (max b x) with h | h
    · rw [h]
      by_cases hbx : b ≤ x
      · right; rw [max_eq_right hbx]; exact List.mem_cons_self _ _
      · left; rw [max_eq_left (le_of_not_le hbx)]
    · right; exact List.mem_cons_of_mem _ h

/-- C5 (amended): `patternSearch` scores every candidate as the maximum
over per-field scores — full substring match at full field weight,
all-words multi-word match at 0.9 weight, single-word partial match at
0.85 weight — and drops zero-scoring candidates; the fixed field weights
are label 0.95, id 0.9, use-for 0.9, title 0.85, transaction code 0.85,
entity names 0.8, description 0.6, so the specificity order is
label > (id = use-for) > (title = tcode) > entities > description. -/
theorem C5_lexical_scoring (hints : String → Option ServiceHint) (services : List ODataService)
    (ql : String) :
    (patternSearch hints services ql).map (fun x => (x.service, x.score)) =
      (services.map (fun s => (s, bestScoreSpec hints ql s))).filter (fun p => 0 < p.2) ∧
    (∀ s, (searchTargets hints s).map (fun t => (t.name, t.weight)) =
      [("ID", 9/10), ("Title", 85/100), ("Description", 6/10), ("Label", 95/100),
       ("UseFor", 9/10), ("TCode", 85/100), ("Entities", 8/10)]) ∧
    ((95 : ℚ)/100 > 9/10 ∧ (9 : ℚ)/10 > 85/100 ∧ (85 : ℚ)/100 > 8/10 ∧ (8 : ℚ)/10 > 6/10) := by
  refine ⟨?_, ?_, by norm_num⟩
  · unfold patternSearch
    induction services with
    | nil => simp
    | cons s rest ih =>
      simp only [List.map_cons, List.filter_cons]
      rw [scanTargets_fst _ _ _ _ _ le_rfl]
      by_cases hp : (0 : ℚ) < bestScoreSpec hints ql s
      · rw [if_pos (by simpa [bestScoreSpec] using hp), if_pos (by simpa using hp)]
        simp only [List.map_cons]
        rw [← ih]
        rfl
      · rw [if_neg (by simpa [bestScoreSpec] using hp), if_neg (by simpa using hp)]
        exact ih
  · intro s
    simp [searchTargets]

/-- C5 counterexample to the claimed weight order: with the query matching
only the description of one service (score 0.6) and only the transaction
code of another (score 0.85), the description match scores strictly lower
— the source weights description below tcode, not above; and a query
matching only the id of one service and only the use-for hint of another
scores identically (0.9 each), so id and use-for are not strictly
ordered. -/
theorem C5_counterexample :
    (patternSearch (fun i => if i = "XSVC2" then some ⟨"", "", none, some "F-28"⟩ else none)
      [⟨"XSVC1", "alpha", "pay with f-28 code", "u", none, 0, 0, false, none⟩]
      "f-28").map (fun x => (x.score, x.matchReason)) = [(6/10, "Description match")] ∧
    (patternSearch (fun i => if i = "XSVC2" then some ⟨"", "", none, some "F-28"⟩ else none)
      [⟨"XSVC2", "alpha", "beta", "u", none, 0, 0, false, none⟩]
      "f-28").map (fun x => (x.score, x.matchReason)) = [(85/100, "TCode match")] ∧
    (6 : ℚ)/10 < 85/100 ∧
    (patternSearch (fun i => if i = "XSVC4" then some ⟨"", "use for payq things", none, none⟩
        else none)
      [⟨"XPAYQ", "alpha", "beta", "u", none, 0, 0, false, none⟩]
      "payq").map (fun x => x.score) = [9/10] ∧
    (patternSearch (fun i => if i = "XSVC4" then some ⟨"", "use for payq things", none, none⟩
        else none)
      [⟨"XSVC4", "alpha", "beta", "u", none, 0, 0, false, none⟩]
      "payq").map (fun x => x.score) = [9/10] :=
  ⟨by decide, by decide, by norm_num, by decide, by decide⟩

/-- C10: query words of length at most 2 are discarded before word-level
matching; a query consisting solely of such short words has an empty
word list and can only score through a whole-query substring match against
one of the weighted fields, at that field's full weight. -/
theorem C10_short_words (hints : String → Option ServiceHint) (services : List ODataService)
    (ql : String) (h : ∀ w ∈ wsWords ql, w.length ≤ 2) :
    queryWords ql = [] ∧
    ∀ item ∈ patternSearch hints services ql,
      ∃ t ∈ searchTargets hints item.service,
        ¬ t.text = "" ∧ strContains t.text ql = true ∧ item.score = t.weight := by
  have hqw : queryWords ql = [] := by
    unfold queryWords
    rw [List.filter_eq_nil_iff]
    intro w hw
    simp only [decide_eq_true_eq, not_lt]
    exact h w hw
  refine ⟨hqw, ?_⟩
  intro item hitem
  obtain ⟨hmem, hpos, hscore⟩ := mem_patternSearch hints services ql item hitem
  rw [hscore] at hpos ⊢
  unfold bestScoreSpec at hpos ⊢
  rw [hqw] at hpos ⊢
  rcases foldl_max_cases _ 0 with hz | hmem2
  · rw [hz] at hpos; exact absurd hpos (lt_irrefl 0)
  · obtain ⟨t, ht, hft⟩ := List.mem_map.mp hmem2
    refine ⟨t, ht, ?_⟩
    by_cases h0 : t.text = ""
    · rw [← hft] at hpos
      simp [fieldScoreSpec, h0] at hpos
    · by_cases hc : strContains t.text ql = true
      · refine ⟨h0, hc, ?_⟩
        rw [← hft]
        simp [fieldScoreSpec, h0, hc]
      · rw [← hft] at hpos
        simp [fieldScoreSpec, h0, hc] at hpos

/-- C10 witness: the query `ab` consists solely of a length-2 word; on a
catalog whose only candidate contains `ab` in its id, the theorem applies
and the word list is empty. -/
theorem C10_short_words_witness :
    (∀ w ∈ wsWords "ab", w.length ≤ 2) ∧
    queryWords "ab" = [] ∧
    ∀ item ∈ patternSearch (fun _ => none)
        [⟨"XABZ", "t", "d", "u", none, 0, 0, false, none⟩] "ab",
      ∃ t ∈ searchTargets (fun _ => none) item.service,
        ¬ t.text = "" ∧ strContains t.text "ab" = true ∧ item.score = t.weight :=
  ⟨by decide,
   (C10_short_words (fun _ => none) [⟨"XABZ", "t", "d", "u", none, 0, 0, false, none⟩] "ab"
     (by decide)).1,
   (C10_short_words (fun _ => none) [⟨"XABZ", "t", "d", "u", none, 0, 0, false, none⟩] "ab"
     (by decide)).2⟩

instance : IsTotal ScoredService svcRel := ⟨by
  intro a b
  unfold svcRel svcLE
  cases hA : a.service.isPriorityService <;> cases hB : b.service.isPriorityService <;>
    simp_all <;> split_ifs <;> (try simp_all) <;>
    first | omega | exact le_total _ _⟩

instance : IsTrans ScoredService svcRel := ⟨by
  intro a b c hab hbc
  unfold svcRel svcLE at hab hbc ⊢
  cases hA : a.service.isPriorityService <;> cases hB : b.service.isPriorityService <;>
    cases hC : c.service.isPriorityService <;> simp_all <;>
    split_ifs at hab hbc ⊢ <;> (try simp_all) <;>
    first | omega | exact le_trans hbc hab⟩

/-- Candidates produced by the two-stage search come from the filtered
services. -/
theorem mem_stageScored (hints : String → Option ServiceHint) (services : List ODataService)
    (emb : EmbedOutcome) (query : String) (x : ScoredService)
    (hx : x ∈ (stageScored hints services emb query).1) : x.service ∈ services := by
  unfold stageScored at hx
  by_cases hq : query = ""
  · rw [if_pos hq] at hx; exact absurd hx (List.not_mem_nil x)
  · rw [if_neg hq] at hx
    have hpat : ∀ {l : List ScoredService},
        l = patternSearch hints services (lowerStr query) → x ∈ l → x.service ∈ services := by
      intro l hl hm
      exact (mem_patternSearch hints services (lowerStr query) x (hl ▸ hm)).1
    cases emb with
    | unavailable => exact hpat rfl hx
    | failed => exact hpat rfl hx
    | ok results =>
      simp only at hx
      by_cases hr : results.isEmpty
      · rw [if_pos hr] at hx; exact hpat rfl hx
      · rw [if_neg hr] at hx
        set sem := results.filterMap (fun r =>
          (services.find? (fun s => s.id == r.serviceId)).map (fun s =>
            ScoredService.mk s r.score "Semantic match")) with hsem
        by_cases hse : sem.isEmpty
        · rw [if_pos hse] at hx; exact hpat rfl hx
        · rw [if_neg hse] at hx
          simp only at hx
          obtain ⟨r, _, hfr⟩ := List.mem_filterMap.mp (hsem ▸ hx)
          cases hfind : services.find? (fun s => s.id == r.serviceId) with
          | none => rw [hfind] at hfr; simp at hfr
          | some s =>
            rw [hfind] at hfr
            have hs : ScoredService.mk s r.score "Semantic match" = x := by simpa using hfr
            rw [← hs]
            exact List.mem_of_find?_eq_some hfind

/-- Candidates after the return-all fallback come from the filtered
services. -/
theorem mem_withFallback (services : List ODataService) (stage : List ScoredService × String)
    (query : String) (x : ScoredService)
    (hst : ∀ y ∈ stage.1, y.service ∈ services)
    (hx : x ∈ (withFallback services stage query).1) : x.service ∈ services := by
  unfold withFallback at hx
  by_cases he : stage.1.isEmpty
  · rw [if_pos he] at hx
    obtain ⟨s, hs, heq⟩ := List.mem_map.mp hx
    rw [← heq]
    exact hs
  · rw [if_neg he] at hx
    exact hst x hx

/-- Every entry of a Level 1 result comes from the catalog. -/
theorem mem_discoverCore (hints : String → Option ServiceHint) (catalog : List ODataService)
    (emb : EmbedOutcome) (queryRaw domainArg : Option String) (limitArg : Option Nat)
    (x : ScoredService) (hx : x ∈ (discoverCore hints catalog emb queryRaw domainArg limitArg).1) :
    x.service ∈ catalog := by
  unfold discoverCore at hx
  simp only at hx
  have hx2 : x ∈ rerank (withFallback (domainFiltered catalog domainArg)
      (stageScored hints (domainFiltered catalog domainArg) emb (queryOf queryRaw))
      (queryOf queryRaw)).1 :=
    (List.take_sublist _ _).subset hx
  have hx3 := (List.perm_insertionSort svcRel _).subset hx2
  have hsvc : x.service ∈ domainFiltered catalog domainArg :=
    mem_withFallback _ _ _ x
      (fun y hy => mem_stageScored hints _ emb _ y hy) hx3
  unfold domainFiltered at hsvc
  by_cases hd : domainOf domainArg ≠ "ALL"
  · rw [if_pos hd] at hsvc
    exact (List.filter_sublist _).subset hsvc
  · rw [if_neg hd] at hsvc
    exact hsvc

/-- The source comparator implies the spec preorder on entries whose tiers
obey the data-model bound `tier ≤ 3` (the comparator encodes "unclassified
last" with the sentinel 99, the spec statement with any value above 3). -/
theorem svcLE_imp_specLE (a b : ScoredService)
    (ha : a.service.tier ≤ 3) (hb : b.service.tier ≤ 3)
    (h : svcLE a b = true) : specLE a b = true := by
  simp only [svcLE, jsOr] at h
  simp only [specLE, jsOr]
  cases hA : a.service.isPriorityService <;> cases hB : b.service.isPriorityService <;>
    simp_all <;> split_ifs at h ⊢ <;> (try simp_all) <;> omega

/-- C1: every Stage 1 search result list is sorted by the business-priority
total preorder — priority-flagged services first, then ascending tier with
unclassified (tier 0/absent) last, then ascending priorityScore, then
descending raw search score — whatever stage (semantic, lexical, or
fallback-all) produced the candidates. -/
theorem C1_results_sorted (hints : String → Option ServiceHint) (catalog : List ODataService)
    (emb : EmbedOutcome) (queryRaw domainArg : Option String) (limitArg : Option Nat)
    (h : ∀ s ∈ catalog, s.tier ≤ 3) :
    List.Sorted (fun x y => specLE x y = true)
      (discoverCore hints catalog emb queryRaw domainArg limitArg).1 := by
  have hsorted : List.Pairwise svcRel
      (rerank (withFallback (domainFiltered catalog domainArg)
        (stageScored hints (domainFiltered catalog domainArg) emb (queryOf queryRaw))
        (queryOf queryRaw)).1) :=
    List.sorted_insertionSort svcRel _
  have htier : ∀ y ∈ rerank (withFallback (domainFiltered catalog domainArg)
      (stageScored hints (domainFiltered catalog domainArg) emb (queryOf queryRaw))
      (queryOf queryRaw)).1, y.service.tier ≤ 3 := by
    intro y hy
    have hy2 : y.service ∈ domainFiltered catalog domainArg :=
      mem_withFallback _ _ _ y (fun z hz => mem_stageScored hints _ emb _ z hz)
        ((List.perm_insertionSort svcRel _).subset hy)
    have hy3 : y.service ∈ catalog := by
      unfold domainFiltered at hy2
      by_cases hd : domainOf domainArg ≠ "ALL"
      · rw [if_pos hd] at hy2
        exact (List.filter_sublist _).subset hy2
      · rw [if_neg hd] at hy2
        exact hy2
    exact h _ hy3
  have hpair : List.Pairwise (fun x y => specLE x y = true)
      (rerank (withFallback (domainFiltered catalog domainArg)
        (stageScored hints (domainFiltered catalog domainArg) emb (queryOf queryRaw))
        (queryOf queryRaw)).1) :=
    List.Pairwise.imp_of_mem
      (fun hx hy hr => svcLE_imp_specLE _ _ (htier _ hx) (htier _ hy) hr) hsorted
  exact List.Pairwise.sublist (List.take_sublist _ _) hpair

/-- C1 witness: a concrete catalog within the tier bound; the limited
result of a semantic-stage search is sorted by the spec preorder. -/
theorem C1_results_sorted_witness :
    (∀ s ∈ [(⟨"S1", "t1", "d1", "u", some "AR", 2, 20, false, none⟩ : ODataService),
            ⟨"S2", "t2", "d2", "u", some "AR", 1, 1, true, none⟩,
            ⟨"S3", "t3", "d3", "u", none, 0, 100, false, none⟩], s.tier ≤ 3) ∧
    List.Sorted (fun x y => specLE x y = true)
      (discoverCore (fun _ => none)
        [⟨"S1", "t1", "d1", "u", some "AR", 2, 20, false, none⟩,
         ⟨"S2", "t2", "d2", "u", some "AR", 1, 1, true, none⟩,
         ⟨"S3", "t3", "d3", "u", none, 0, 100, false, none⟩]
        (EmbedOutcome.ok [⟨"S1", 9/10⟩, ⟨"S3", 8/10⟩])
        (some "line items") none (some 2)).1 :=
  ⟨by decide,
   C1_results_sorted (fun _ => none) _ (EmbedOutcome.ok [⟨"S1", 9/10⟩, ⟨"S3", 8/10⟩])
     (some "line items") none (some 2) (by decide)⟩

/-- C3: a thrown embedding-provider error during the semantic stage is
caught (the discovery call still returns an ordinary result, equal to the
one produced when the provider is simply unavailable) and the search still
attempts the lexical fallback over the domain-filtered candidates. -/
theorem C3_semantic_error_caught (hints : String → Option ServiceHint)
    (catalog : List ODataService) (queryRaw domainArg : Option String) (limitArg : Option Nat)
    (h : queryOf queryRaw ≠ "") :
    discoverCore hints catalog EmbedOutcome.failed queryRaw domainArg limitArg =
      discoverCore hints catalog EmbedOutcome.unavailable queryRaw domainArg limitArg ∧
    stageScored hints (domainFiltered catalog domainArg) EmbedOutcome.failed (queryOf queryRaw) =
      (patternSearch hints (domainFiltered catalog domainArg) (lowerStr (queryOf queryRaw)),
       "pattern") := by
  have hst : stageScored hints (domainFiltered catalog domainArg) EmbedOutcome.failed
      (queryOf queryRaw) =
      (patternSearch hints (domainFiltered catalog domainArg) (lowerStr (queryOf queryRaw)),
       "pattern") := by
    unfold stageScored
    rw [if_neg h]
  have hst2 : stageScored hints (domainFiltered catalog domainArg) EmbedOutcome.unavailable
      (queryOf queryRaw) =
      (patternSearch hints (domainFiltered catalog domainArg) (lowerStr (queryOf queryRaw)),
       "pattern") := by
    unfold stageScored
    rw [if_neg h]
  refine ⟨?_, hst⟩
  unfold discoverCore
  dsimp only
  rw [hst, hst2]

/-- C3 witness: a non-empty query instantiates the theorem. -/
theorem C3_semantic_error_caught_witness :
    queryOf (some "payment") ≠ "" ∧
    (discoverCore (fun _ => none) [⟨"S1", "payment posting", "d", "u", none, 1, 10, false, none⟩]
      EmbedOutcome.failed (some "payment") none none =
     discoverCore (fun _ => none) [⟨"S1", "payment posting", "d", "u", none, 1, 10, false, none⟩]
      EmbedOutcome.unavailable (some "payment") none none) :=
  ⟨by decide,
   (C3_semantic_error_caught (fun _ => none)
     [⟨"S1", "payment posting", "d", "u", none, 1, 10, false, none⟩]
     (some "payment") none none (by decide)).1⟩

/-- The domain-filtered candidate list is a sublist of the catalog. -/
theorem domainFiltered_sublist (catalog : List ODataService) (domainArg : Option String) :
    (domainFiltered catalog domainArg).Sublist catalog := by
  unfold domainFiltered
  by_cases hd : domainOf domainArg ≠ "ALL"
  · rw [if_pos hd]; exact List.filter_sublist _
  · rw [if_neg hd]

/-- The return-all fallback guarantees a non-empty scored list whenever the
filtered corpus is non-empty. -/
theorem withFallback_ne_nil (services : List ODataService) (stage : List ScoredService × String)
    (query : String) (hne : services ≠ []) : (withFallback services stage query).1 ≠ [] := by
  unfold withFallback
  by_cases he : stage.1.isEmpty
  · rw [if_pos he]
    simp only
    intro hmap
    exact hne (by simpa using hmap)
  · rw [if_neg he]
    intro h1
    exact he (by simp [h1])

/-- C4: with a non-empty filtered corpus, Stage 1 search never returns an
empty list (for any query and stage outcome); with an empty query it
returns exactly `min(limit, corpus size)` entries, each carrying the
neutral score 0.5, with no duplicate serviceIds when the catalog ids are
distinct. -/
theorem C4_empty_query_and_nonempty (hints : String → Option ServiceHint)
    (catalog : List ODataService) (emb : EmbedOutcome) (queryRaw domainArg : Option String)
    (lim : Nat) (hlim : 1 ≤ lim) (hne : domainFiltered catalog domainArg ≠ []) :
    (discoverCore hints catalog emb queryRaw domainArg (some lim)).1 ≠ [] ∧
    (queryOf queryRaw = "" →
      (discoverCore hints catalog emb queryRaw domainArg (some lim)).1.length =
        min lim (domainFiltered catalog domainArg).length ∧
      (∀ x ∈ (discoverCore hints catalog emb queryRaw domainArg (some lim)).1,
        x.score = 1/2) ∧
      ((catalog.map (fun s => s.id)).Nodup →
        ((discoverCore hints catalog emb queryRaw domainArg (some lim)).1.map
          (fun x => x.service.id)).Nodup)) := by
  have hl : limitOf (some lim) = lim := by
    unfold limitOf jsOr
    simp only
    rw [if_neg (by omega)]
  constructor
  · unfold discoverCore rerank
    dsimp only
    intro hnil
    have hpos : 0 < ((List.insertionSort svcRel (withFallback (domainFiltered catalog domainArg)
        (stageScored hints (domainFiltered catalog domainArg) emb (queryOf queryRaw))
        (queryOf queryRaw)).1).take (limitOf (some lim))).length := by
      rw [List.length_take, List.length_insertionSort, hl]
      exact lt_min hlim (List.length_pos.mpr (withFallback_ne_nil _ _ _ hne))
    rw [hnil] at hpos
    simp at hpos
  · intro hq
    have hstage : stageScored hints (domainFiltered catalog domainArg) emb (queryOf queryRaw) =
        ([], "none") := by
      unfold stageScored
      rw [if_pos hq]
    have hfb : (withFallback (domainFiltered catalog domainArg) ([], "none")
        (queryOf queryRaw)).1 =
        (domainFiltered catalog domainArg).map
          (fun s => ScoredService.mk s (1/2) "All services") := by
      simp [withFallback]
    refine ⟨?_, ?_, ?_⟩
    · unfold discoverCore rerank
      dsimp only
      rw [hstage, List.length_take, List.length_insertionSort, hfb, List.length_map, hl]
    · intro x hx
      unfold discoverCore rerank at hx
      dsimp only at hx
      rw [hstage] at hx
      have hx2 := (List.perm_insertionSort svcRel _).subset ((List.take_sublist _ _).subset hx)
      rw [hfb] at hx2
      obtain ⟨s, _, heq⟩ := List.mem_map.mp hx2
      rw [← heq]
    · intro hnod
      unfold discoverCore rerank
      dsimp only
      rw [hstage]
      have hperm : ((List.insertionSort svcRel ((withFallback (domainFiltered catalog domainArg)
          ([], "none") (queryOf queryRaw)).1)).map (fun x => x.service.id)).Perm
          (((withFallback (domainFiltered catalog domainArg) ([], "none")
            (queryOf queryRaw)).1).map (fun x => x.service.id)) :=
        (List.perm_insertionSort svcRel _).map _
      have hnod2 : (((withFallback (domainFiltered catalog domainArg) ([], "none")
          (queryOf queryRaw)).1).map (fun x => x.service.id)).Nodup := by
        rw [hfb, List.map_map]
        have : ((fun x : ScoredService => x.service.id) ∘
            (fun s => ScoredService.mk s (1/2) "All services")) = fun s => s.id := rfl
        rw [this]
        exact ((domainFiltered_sublist catalog domainArg).map _).nodup hnod
      have hnod3 := (hperm.nodup_iff).mpr hnod2
      have hsub : (((List.insertionSort svcRel ((withFallback
          (domainFiltered catalog domainArg) ([], "none") (queryOf queryRaw)).1)).take
          (limitOf (some lim))).map (fun x => x.service.id)).Sublist
          ((List.insertionSort svcRel ((withFallback (domainFiltered catalog domainArg)
            ([], "none") (queryOf queryRaw)).1)).map (fun x => x.service.id)) :=
        (List.take_sublist _ _).map _
      exact hsub.nodup hnod3

/-- C4 witness: a singleton catalog with limit 1 and no query returns one
neutral-scored entry. -/
theorem C4_empty_query_and_nonempty_witness :
    (1 ≤ 1 ∧ domainFiltered [(⟨"S1", "t", "d", "u", none, 1, 10, false, none⟩ : ODataService)]
      none ≠ []) ∧
    (discoverCore (fun _ => none) [⟨"S1", "t", "d", "u", none, 1, 10, false, none⟩]
      EmbedOutcome.unavailable none none (some 1)).1 ≠ [] :=
  ⟨⟨le_refl 1, by decide⟩,
   (C4_empty_query_and_nonempty (fun _ => none)
     [⟨"S1", "t", "d", "u", none, 1, 10, false, none⟩]
     EmbedOutcome.unavailable none none 1 (le_refl 1) (by decide)).1⟩

/-- `setMetadata` never changes an entry id. -/
theorem setMetadata_id (c : ODataService) (t : String) (md : ServiceMetadata) :
    (if c.id == t then { c with metadata := some md } else c).id = c.id := by
  split <;> rfl

/-- Looking up a service after `setMetadata` finds the same entry, with
metadata possibly set. -/
theorem find?_setMetadata (catalog : List ODataService) (t : String) (md : ServiceMetadata)
    (sid : String) :
    (setMetadata catalog t md).find? (fun s => s.id == sid) =
      (catalog.find? (fun s => s.id == sid)).map
        (fun s => if s.id == t then { s with metadata := some md } else s) := by
  induction catalog with
  | nil => simp [setMetadata]
  | cons c rest ih =>
    simp only [setMetadata, List.map_cons]
    rw [List.find?_cons, List.find?_cons, setMetadata_id]
    cases hc : (c.id == sid) with
    | true => simp
    | false =>
      simp only
      simpa [setMetadata] using ih

/-- `setMetadata` preserves materialized metadata. -/
theorem hasMeta_setMetadata (catalog : List ODataService)
    (cache : List (String × ServiceMetadata)) (t : String) (md : ServiceMetadata) (sid : String)
    (h : hasMeta ⟨catalog, cache⟩ sid = true) :
    hasMeta ⟨setMetadata catalog t md, cache⟩ sid = true := by
  unfold hasMeta at h ⊢
  simp only at h ⊢
  rw [find?_setMetadata]
  cases hf : catalog.find? (fun s => s.id == sid) with
  | none => rw [hf] at h; simpa using h
  | some s =>
    rw [hf] at h
    simp only [Option.map_some']
    rcases Bool.or_eq_true_iff.mp h with h1 | h2
    · refine Bool.or_eq_true_iff.mpr (Or.inl ?_)
      by_cases hst : (s.id == t) = true
      · rw [if_pos hst]; simp
      · rw [if_neg hst]; exact h1
    · exact Bool.or_eq_true_iff.mpr (Or.inr h2)

/-- Adding a cache entry preserves materialized metadata. -/
theorem hasMeta_cacheCons (catalog : List ODataService)
    (cache : List (String × ServiceMetadata)) (t : String) (md : ServiceMetadata) (sid : String)
    (h : hasMeta ⟨catalog, cache⟩ sid = true) :
    hasMeta ⟨catalog, (t, md) :: cache⟩ sid = true := by
  unfold hasMeta at h ⊢
  simp only at h ⊢
  rcases Bool.or_eq_true_iff.mp h with h1 | h2
  · exact Bool.or_eq_true_iff.mpr (Or.inl h1)
  · refine Bool.or_eq_true_iff.mpr (Or.inr ?_)
    unfold lookupCache at h2 ⊢
    rw [List.find?_cons]
    cases hts : ((t, md).1 == sid) with
    | true => simp
    | false =>
      simp only
      exact h2

/-- The fetch trace of `ensureMetadata` is empty or a single fetch of the
service's own id. -/
theorem ensureMetadata_trace (fetch : String → Except String ServiceMetadata) (st : RegState)
    (service : ODataService) :
    (ensureMetadata fetch st service).2.2 = [] ∨
    (ensureMetadata fetch st service).2.2 = [UpstreamCall.metadataFetch service.id] := by
  unfold ensureMetadata
  cases hm : service.metadata with
  | some md => simp
  | none =>
    cases hc : lookupCache st.metadataCache service.id with
    | some md => simp
    | none =>
      cases hf : fetch service.id with
      | ok md => simp
      | error e => simp

/-- `ensureMetadata` preserves materialized metadata for every key. -/
theorem ensureMetadata_mono (fetch : String → Except String ServiceMetadata) (st : RegState)
    (service : ODataService) (sid : String) (h : hasMeta st sid = true) :
    hasMeta (ensureMetadata fetch st service).2.1 sid = true := by
  obtain ⟨catalog, cache⟩ := st
  unfold ensureMetadata
  cases hm : service.metadata with
  | some md => simpa using h
  | none =>
    cases hc : lookupCache cache service.id with
    | some md =>
      simp only
      exact hasMeta_setMetadata _ _ _ _ _ h
    | none =>
      cases hf : fetch service.id with
      | ok md =>
        simp only
        exact hasMeta_cacheCons _ _ _ _ _ (hasMeta_setMetadata _ _ _ _ _ h)
      | error e => simpa using h

/-- Is an upstream call a schema-provider fetch? -/
def UpstreamCall.isFetch : UpstreamCall → Bool
  | metadataFetch _ => true
  | _ => false

/-- `countFetch` distributes over trace concatenation. -/
theorem countFetch_append (sid : String) (a b : List UpstreamCall) :
    countFetch sid (a ++ b) = countFetch sid a + countFetch sid b :=
  List.countP_append _ _ _

/-- Traces without fetches count zero. -/
theorem countFetch_eq_zero_of_noFetch (sid : String) (tr : List UpstreamCall)
    (h : tr.all (fun u => !u.isFetch) = true) : countFetch sid tr = 0 := by
  induction tr with
  | nil => rfl
  | cons u rest ih =>
    simp only [List.all_cons, Bool.and_eq_true] at h
    unfold countFetch
    rw [List.countP_cons]
    have hu : (u == UpstreamCall.metadataFetch sid) = false := by
      cases u <;> simp_all [UpstreamCall.isFetch]
    rw [hu]
    simpa [countFetch] using ih h.2

/-- A service found by id carries that id. -/
theorem find?_id_eq (catalog : List ODataService) (sid : String) (service : ODataService)
    (h : catalog.find? (fun s => s.id == sid) = some service) : service.id = sid := by
  have := List.find?_some h
  simpa using this

/-- Fetch accounting for `ensureMetadata`: at most one fetch; none when the
key is already materialized; and a successful fetch materializes the key. -/
theorem ensureMetadata_spec (fetch : String → Except String ServiceMetadata) (st : RegState)
    (service : ODataService) (sid : String)
    (hfind : st.catalog.find? (fun s => s.id == service.id) = some service) :
    countFetch sid (ensureMetadata fetch st service).2.2 ≤ 1 ∧
    (hasMeta st sid = true → countFetch sid (ensureMetadata fetch st service).2.2 = 0) ∧
    ((∃ md, fetch sid = Except.ok md) →
      1 ≤ countFetch sid (ensureMetadata fetch st service).2.2 →
      hasMeta (ensureMetadata fetch st service).2.1 sid = true) := by
  obtain ⟨catalog, cache⟩ := st
  unfold ensureMetadata
  cases hm : service.metadata with
  | some md => simp [countFetch]
  | none =>
    cases hc : lookupCache cache service.id with
    | some md => simp [countFetch]
    | none =>
      by_cases hsid : service.id = sid
      · subst hsid
        cases hf : fetch service.id with
        | ok md =>
          simp only
          refine ⟨?_, ?_, ?_⟩
          · simp [countFetch]
          · intro h
            unfold hasMeta at h
            simp only at h
            rw [hfind] at h
            simp [hm, hc] at h
          · intro _ _
            unfold hasMeta lookupCache
            simp
        | error e =>
          simp only
          refine ⟨?_, ?_, ?_⟩
          · simp [countFetch]
          · intro h
            unfold hasMeta at h
            simp only at h
            rw [hfind] at h
            simp [hm, hc] at h
          · intro hok _
            obtain ⟨md, hmd⟩ := hok
            exact absurd hmd (by simp)
      · have hcount : countFetch sid [UpstreamCall.metadataFetch service.id] = 0 := by
          unfold countFetch
          rw [List.countP_cons]
          simp [hsid]
        cases hf : fetch service.id with
        | ok md =>
          simp only
          exact ⟨by rw [hcount]; omega, fun _ => hcount,
            fun _ h1 => absurd h1 (by rw [hcount]; omega)⟩
        | error e =>
          simp only
          exact ⟨by rw [hcount]; omega, fun _ => hcount,
            fun _ h1 => absurd h1 (by rw [hcount]; omega)⟩

/-- The serviceId a tool call addresses. -/
def ToolCall.serviceId : ToolCall → String
  | inspect sid _ => sid
  | act sid _ _ _ => sid

/-- Shape of any Level 2/3 call: either an early rejection touching
nothing, or a lazy-load via `ensureMetadata` for the addressed service
followed only by non-fetch upstream calls. -/
theorem runCall_shape (fetch : String → Except String ServiceMetadata) (st : RegState)
    (c : ToolCall) :
    ((runCall fetch st c).state = st ∧ (runCall fetch st c).trace = []) ∨
    (∃ service extra, st.catalog.find? (fun s => s.id == c.serviceId) = some service ∧
      (runCall fetch st c).state = (ensureMetadata fetch st service).2.1 ∧
      (runCall fetch st c).trace = (ensureMetadata fetch st service).2.2 ++ extra ∧
      extra.all (fun u => !u.isFetch) = true) := by
  cases c with
  | inspect sid en =>
    simp only [runCall]
    unfold getEntityMetadata
    by_cases h0 : sid = "" ∨ en = ""
    · rw [if_pos h0]; left; exact ⟨rfl, rfl⟩
    · rw [if_neg h0]
      cases hfind : st.catalog.find? (fun s => s.id == sid) with
      | none => left; exact ⟨rfl, rfl⟩
      | some service =>
        dsimp only
        rcases hens : ensureMetadata fetch st service with ⟨res, st1, tr⟩
        right
        refine ⟨service, [], hfind, ?_⟩
        rw [hens]
        cases res with
        | error e => dsimp only; exact ⟨rfl, by simp, rfl⟩
        | ok md =>
          dsimp only
          cases md.entityTypes.find? (fun e => e.name == en) with
          | none => exact ⟨rfl, by simp, rfl⟩
          | some _ => exact ⟨rfl, by simp, rfl⟩
  | act sid en op ps =>
    simp only [runCall]
    unfold executeOperation
    dsimp only
    by_cases hv : ¬ validOps.contains (lowerStr op) = true
    · rw [if_pos hv]; left; exact ⟨rfl, rfl⟩
    · rw [if_neg hv]
      cases hfind : st.catalog.find? (fun s => s.id == sid) with
      | none => left; exact ⟨rfl, rfl⟩
      | some service =>
        dsimp only
        rcases hens : ensureMetadata fetch st service with ⟨res, st1, tr⟩
        right
        cases res with
        | error e =>
          exact ⟨service, [], hfind, by rw [hens], by rw [hens]; simp, rfl⟩
        | ok md =>
          dsimp only
          cases md.entityTypes.find? (fun e => e.name == en) with
          | none => exact ⟨service, [], hfind, by rw [hens], by rw [hens]; simp, rfl⟩
          | some et =>
            dsimp only
            by_cases hr : lowerStr op = "read"
            · rw [if_pos hr]
              exact ⟨service, [UpstreamCall.readSet service.url (et.entitySet.getD "")],
                hfind, by rw [hens], by rw [hens], by simp [UpstreamCall.isFetch]⟩
            · rw [if_neg hr]
              by_cases hrs : lowerStr op = "read-single"
              · rw [if_pos hrs]
                cases buildKeyValue et ps with
                | error e => exact ⟨service, [], hfind, by rw [hens], by rw [hens]; simp, rfl⟩
                | ok kv =>
                  exact ⟨service,
                    [UpstreamCall.readSingle service.url (et.entitySet.getD "") kv],
                    hfind, by rw [hens], by rw [hens], by simp [UpstreamCall.isFetch]⟩
              · rw [if_neg hrs]
                by_cases hcr : lowerStr op = "create"
                · rw [if_pos hcr]
                  by_cases hflag : ¬ et.creatable = true
                  · rw [if_pos hflag]
                    exact ⟨service, [], hfind, by rw [hens], by rw [hens]; simp, rfl⟩
                  · rw [if_neg hflag]
                    exact ⟨service,
                      [UpstreamCall.createCall service.url (et.entitySet.getD "") ps],
                      hfind, by rw [hens], by rw [hens], by simp [UpstreamCall.isFetch]⟩
                · rw [if_neg hcr]
                  by_cases hup : lowerStr op = "update"
                  · rw [if_pos hup]
                    by_cases hflag : ¬ et.updatable = true
                    · rw [if_pos hflag]
                      exact ⟨service, [], hfind, by rw [hens], by rw [hens]; simp, rfl⟩
                    · rw [if_neg hflag]
                      cases buildKeyValue et ps with
                      | error e =>
                        exact ⟨service, [], hfind, by rw [hens], by rw [hens]; simp, rfl⟩
                      | ok kv =>
                        exact ⟨service,
                          [UpstreamCall.updateCall service.url (et.entitySet.getD "") kv
                            (ps.filter (fun p => ¬ et.keys.contains p.1))],
                          hfind, by rw [hens], by rw [hens], by simp [UpstreamCall.isFetch]⟩
                  · rw [if_neg hup]
                    by_cases hflag : ¬ et.deletable = true
                    · rw [if_pos hflag]
                      exact ⟨service, [], hfind, by rw [hens], by rw [hens]; simp, rfl⟩
                    · rw [if_neg hflag]
                      cases buildKeyValue et ps with
                      | error e =>
                        exact ⟨service, [], hfind, by rw [hens], by rw [hens]; simp, rfl⟩
                      | ok kv =>
                        exact ⟨service,
                          [UpstreamCall.deleteCall service.url (et.entitySet.getD "") kv],
                          hfind, by rw [hens], by rw [hens], by simp [UpstreamCall.isFetch]⟩

/-- Fetch accounting for one tool call: at most one fetch; none when the
key is materialized (and it stays materialized); a successful fetch
materializes the key. -/
theorem runCall_spec (fetch : String → Except String ServiceMetadata) (st : RegState)
    (c : ToolCall) (sid : String) :
    countFetch sid (runCall fetch st c).trace ≤ 1 ∧
    (hasMeta st sid = true → countFetch sid (runCall fetch st c).trace = 0 ∧
      hasMeta (runCall fetch st c).state sid = true) ∧
    ((∃ md, fetch sid = Except.ok md) → 1 ≤ countFetch sid (runCall fetch st c).trace →
      hasMeta (runCall fetch st c).state sid = true) := by
  rcases runCall_shape fetch st c with ⟨hst, htr⟩ | ⟨service, extra, hfind, hst, htr, hall⟩
  · rw [hst, htr]
    exact ⟨by simp [countFetch], fun h => ⟨by simp [countFetch], h⟩,
      fun _ h1 => absurd h1 (by simp [countFetch])⟩
  · have hsvc : service.id = c.serviceId := find?_id_eq _ _ _ hfind
    have hfind2 : st.catalog.find? (fun s => s.id == service.id) = some service := by
      rw [hsvc]; exact hfind
    obtain ⟨e1, e2, e3⟩ := ensureMetadata_spec fetch st service sid hfind2
    have hextra : countFetch sid extra = 0 := countFetch_eq_zero_of_noFetch sid extra hall
    rw [hst, htr, countFetch_append, hextra]
    refine ⟨by omega, fun h => ⟨by rw [e2 h], ensureMetadata_mono fetch st service sid h⟩,
      fun hok h1 => e3 hok (by omega)⟩

/-- A materialized key stays materialized and is never re-fetched across a
sequential sequence of calls. -/
theorem runCalls_cached (fetch : String → Except String ServiceMetadata) (st : RegState)
    (calls : List ToolCall) (sid : String) (h : hasMeta st sid = true) :
    countFetch sid (runCalls fetch st calls).2 = 0 ∧
    hasMeta (runCalls fetch st calls).1 sid = true := by
  induction calls generalizing st with
  | nil => exact ⟨rfl, h⟩
  | cons c rest ih =>
    obtain ⟨_, h2, _⟩ := runCall_spec fetch st c sid
    obtain ⟨hz, hm⟩ := h2 h
    obtain ⟨ihz, ihm⟩ := ih (runCall fetch st c).state hm
    unfold runCalls
    dsimp only
    rw [countFetch_append, hz, ihz]
    exact ⟨rfl, ihm⟩

/-- C7: across every sequential sequence of inspect/act calls, the schema
provider is fetched at most once per serviceId (given the provider answers
that id), and a call sequence starting from a state where the key is
already cached issues zero fetches for it. -/
theorem C7_fetch_once (fetch : String → Except String ServiceMetadata) (st : RegState)
    (calls : List ToolCall) (sid : String) (hok : ∃ md, fetch sid = Except.ok md) :
    countFetch sid (runCalls fetch st calls).2 ≤ 1 ∧
    (hasMeta st sid = true → countFetch sid (runCalls fetch st calls).2 = 0) := by
  constructor
  · induction calls generalizing st with
    | nil => simp [runCalls, countFetch]
    | cons c rest ih =>
      obtain ⟨h1, h2, h3⟩ := runCall_spec fetch st c sid
      unfold runCalls
      dsimp only
      rw [countFetch_append]
      by_cases hc1 : 1 ≤ countFetch sid (runCall fetch st c).trace
      · have hm := h3 hok hc1
        have hz := (runCalls_cached fetch (runCall fetch st c).state rest sid hm).1
        omega
      · have hz : countFetch sid (runCall fetch st c).trace = 0 := by omega
        have := ih (runCall fetch st c).state
        omega
  · intro h
    exact (runCalls_cached fetch st calls sid h).1

/-- C7 witness: a service whose metadata is initially absent, fetched
successfully, then inspected twice — at most one fetch in total. -/
theorem C7_fetch_once_witness :
    (∃ md, (fun s => if s = "S1" then
        Except.ok (⟨[⟨"E1", some "ES", ["Id"], [], true, true, true⟩]⟩ : ServiceMetadata)
      else Except.error "down") "S1" = Except.ok md) ∧
    countFetch "S1" (runCalls (fun s => if s = "S1" then
        Except.ok (⟨[⟨"E1", some "ES", ["Id"], [], true, true, true⟩]⟩ : ServiceMetadata)
      else Except.error "down")
      ⟨[⟨"S1", "t", "d", "u", none, 1, 10, false, none⟩], []⟩
      [ToolCall.inspect "S1" "E1", ToolCall.inspect "S1" "E1"]).2 ≤ 1 :=
  ⟨⟨⟨[⟨"E1", some "ES", ["Id"], [], true, true, true⟩]⟩, rfl⟩,
   (C7_fetch_once (fun s => if s = "S1" then
        Except.ok (⟨[⟨"E1", some "ES", ["Id"], [], true, true, true⟩]⟩ : ServiceMetadata)
      else Except.error "down")
      ⟨[⟨"S1", "t", "d", "u", none, 1, 10, false, none⟩], []⟩
      [ToolCall.inspect "S1" "E1", ToolCall.inspect "S1" "E1"] "S1"
      ⟨⟨[⟨"E1", some "ES", ["Id"], [], true, true, true⟩]⟩, rfl⟩).1⟩

/-- A blocked mutation: when the resolved entity's capability flag is off,
`executeOperation` returns the capability error with exactly the lazy-load
trace and state. -/
theorem executeOperation_blocked (fetch : String → Except String ServiceMetadata) (st : RegState)
    (serviceId entityName : String) (parameters : List (String × String))
    (service : ODataService) (md : ServiceMetadata) (st1 : RegState) (tr : List UpstreamCall)
    (et : EntityType)
    (hfind : st.catalog.find? (fun s => s.id == serviceId) = some service)
    (hens : ensureMetadata fetch st service = (Except.ok md, st1, tr))
    (hent : md.entityTypes.find? (fun e => e.name == entityName) = some et) :
    (et.creatable = false →
      executeOperation fetch st serviceId entityName "create" parameters =
        ⟨Except.error ("Entity " ++ quoteS ++ entityName ++ quoteS ++ " is not creatable"),
         st1, tr⟩) ∧
    (et.updatable = false →
      executeOperation fetch st serviceId entityName "update" parameters =
        ⟨Except.error ("Entity " ++ quoteS ++ entityName ++ quoteS ++ " is not updatable"),
         st1, tr⟩) ∧
    (et.deletable = false →
      executeOperation fetch st serviceId entityName "delete" parameters =
        ⟨Except.error ("Entity " ++ quoteS ++ entityName ++ quoteS ++ " is not deletable"),
         st1, tr⟩) := by
  refine ⟨?_, ?_, ?_⟩
  · intro hflag
    unfold executeOperation
    dsimp only
    rw [show lowerStr "create" = "create" from by decide]
    rw [if_neg (by decide), hfind]
    dsimp only
    rw [hens]
    dsimp only
    rw [hent]
    dsimp only
    rw [if_neg (by decide), if_neg (by decide), if_pos rfl, if_pos (by simp [hflag])]
  · intro hflag
    unfold executeOperation
    dsimp only
    rw [show lowerStr "update" = "update" from by decide]
    rw [if_neg (by decide), hfind]
    dsimp only
    rw [hens]
    dsimp only
    rw [hent]
    dsimp only
    rw [if_neg (by decide), if_neg (by decide), if_neg (by decide), if_pos rfl,
      if_pos (by simp [hflag])]
  · intro hflag
    unfold executeOperation
    dsimp only
    rw [show lowerStr "delete" = "delete" from by decide]
    rw [if_neg (by decide), hfind]
    dsimp only
    rw [hens]
    dsimp only
    rw [hent]
    dsimp only
    rw [if_neg (by decide), if_neg (by decide), if_neg (by decide), if_neg (by decide),
      if_pos (by simp [hflag])]

/-- C6: an act call requesting a mutation on an entity whose corresponding
capability flag is false returns the capability error and issues no
upstream write call — the guard runs before any data operation, so the
whole trace is at most the schema lazy-load. -/
theorem C6_capability_guard (fetch : String → Except String ServiceMetadata) (st : RegState)
    (serviceId entityName : String) (parameters : List (String × String)) (et : EntityType)
    (hres : resolveEntity fetch st serviceId entityName = some et) :
    (et.creatable = false →
      (executeOperation fetch st serviceId entityName "create" parameters).result =
        Except.error ("Entity " ++ quoteS ++ entityName ++ quoteS ++ " is not creatable") ∧
      ∀ u ∈ (executeOperation fetch st serviceId entityName "create" parameters).trace,
        u.isWrite = false) ∧
    (et.updatable = false →
      (executeOperation fetch st serviceId entityName "update" parameters).result =
        Except.error ("Entity " ++ quoteS ++ entityName ++ quoteS ++ " is not updatable") ∧
      ∀ u ∈ (executeOperation fetch st serviceId entityName "update" parameters).trace,
        u.isWrite = false) ∧
    (et.deletable = false →
      (executeOperation fetch st serviceId entityName "delete" parameters).result =
        Except.error ("Entity " ++ quoteS ++ entityName ++ quoteS ++ " is not deletable") ∧
      ∀ u ∈ (executeOperation fetch st serviceId entityName "delete" parameters).trace,
        u.isWrite = false) := by
  unfold resolveEntity at hres
  cases hfind : st.catalog.find? (fun s => s.id == serviceId) with
  | none => rw [hfind] at hres; simp at hres
  | some service =>
    rw [hfind] at hres
    dsimp only at hres
    rcases hens : ensureMetadata fetch st service with ⟨res, st1, tr⟩
    rw [hens] at hres
    cases res with
    | error e => simp at hres
    | ok md =>
      dsimp only at hres
      obtain ⟨hcr, hup, hdel⟩ := executeOperation_blocked fetch st serviceId entityName
        parameters service md st1 tr et hfind hens hres
      have htrace : ∀ u ∈ tr, u.isWrite = false := by
        rcases ensureMetadata_trace fetch st service with h | h
        · rw [hens] at h
          dsimp only at h
          rw [h]
          intro u hu
          exact absurd hu (List.not_mem_nil u)
        · rw [hens] at h
          dsimp only at h
          rw [h]
          intro u hu
          rw [List.mem_singleton.mp hu]
          rfl
      refine ⟨fun hflag => ?_, fun hflag => ?_, fun hflag => ?_⟩
      · rw [hcr hflag]; exact ⟨rfl, htrace⟩
      · rw [hup hflag]; exact ⟨rfl, htrace⟩
      · rw [hdel hflag]; exact ⟨rfl, htrace⟩

/-- C6 witness: a create on an entity with all mutation flags off fails
with the capability error and issues no upstream write. -/
theorem C6_capability_guard_witness :
    resolveEntity (fun _ => Except.error "down")
      ⟨[⟨"S1", "t", "d", "u", none, 1, 10, false,
         some ⟨[⟨"E1", some "ES", ["Id"], [], false, false, false⟩]⟩⟩], []⟩
      "S1" "E1" = some ⟨"E1", some "ES", ["Id"], [], false, false, false⟩ ∧
    ((executeOperation (fun _ => Except.error "down")
      ⟨[⟨"S1", "t", "d", "u", none, 1, 10, false,
         some ⟨[⟨"E1", some "ES", ["Id"], [], false, false, false⟩]⟩⟩], []⟩
      "S1" "E1" "create" []).result =
        Except.error ("Entity " ++ quoteS ++ "E1" ++ quoteS ++ " is not creatable") ∧
     ∀ u ∈ (executeOperation (fun _ => Except.error "down")
      ⟨[⟨"S1", "t", "d", "u", none, 1, 10, false,
         some ⟨[⟨"E1", some "ES", ["Id"], [], false, false, false⟩]⟩⟩], []⟩
      "S1" "E1" "create" []).trace, u.isWrite = false) :=
  ⟨by decide,
   (C6_capability_guard (fun _ => Except.error "down")
      ⟨[⟨"S1", "t", "d", "u", none, 1, 10, false,
         some ⟨[⟨"E1", some "ES", ["Id"], [], false, false, false⟩]⟩⟩], []⟩
      "S1" "E1" [] ⟨"E1", some "ES", ["Id"], [], false, false, false⟩ (by decide)).1 rfl⟩

end NOVA
















